import Mathlib

/-!
Verification of the gims-automation-mcp-server core against its specification.

The Python modules `utils.py`, `validators.py`, `serializers.py`, `client.py`
and `tools/sync.py` are shallowly embedded below: dictionaries become
structures or association lists, Python `while` loops become fuel-bounded
recursions (fuel exhaustion models non-termination), and the remote HTTP
server is an explicit environment value.  Machine-external components
(CPython's `ast.parse`, the `re` regex engine, the HTTP transport) appear as
oracle parameters; every piece of logic written in this repository is
translated directly from the source.

The file is organised as definitions first, then theorems.
-/

namespace Gims

/-! ## Path Resolver (`utils.build_folder_paths`, `utils.build_item_paths`) -/

/-- A folder record as returned by the GIMS API: `{id, name, parent_folder_id}`
(`parent_folder_id` nullable).  Field names follow `utils.py` defaults
(`id_field="id"`, `parent_field="parent_folder_id"`). -/
structure Folder where
  id : Nat
  name : String
  parent_folder_id : Option Nat
  deriving Repr, DecidableEq

/-- `folder_map = {f[id_field]: f for f in folders}`: a Python dict
comprehension keeps the *last* entry for a duplicated key, so lookup scans
the reversed list. -/
def folderMapLookup (folders : List Folder) (i : Nat) : Option Folder :=
  folders.reverse.find? (fun f => f.id == i)

/-- The `while parent_id is not None and parent_id in folder_map` loop of
`build_folder_paths.get_path`, with explicit fuel.  Each loop iteration
(resolvable parent) consumes one unit of fuel; `none` models the Python
loop failing to terminate within `fuel` iterations.  The loop exits
normally when the parent id is null or absent from the map, returning the
accumulated name list (`parts`). -/
def getPathParts (folders : List Folder) (pid : Option Nat) (acc : List String) (fuel : Nat) :
    Option (List String) :=
  match pid with
  | none => some acc
  | some i =>
    match folderMapLookup folders i with
    | none => some acc
    | some p =>
      match fuel with
      | 0 => none
      | fuel' + 1 => getPathParts folders p.parent_folder_id (p.name :: acc) fuel'

/-- `get_path(folder)`: `"/" + "/".join(parts)` with `parts` initialised to
`[folder["name"]]`.  A parent chain that is acyclic visits pairwise
distinct ids of the map, so `folders.length` units of fuel always suffice;
`none` therefore corresponds exactly to a cyclic walk (claim C10). -/
def get_path (folders : List Folder) (f : Folder) : Option String :=
  (getPathParts folders f.parent_folder_id [f.name] folders.length).map
    (fun parts => "/" ++ String.intercalate "/" parts)

/-- One entry of the list returned by `build_folder_paths`: the folder's own
fields plus the computed `path` (and the synthetic-root marker).  `path = none`
records a walk that does not terminate. -/
structure FolderEntry where
  id : Option Nat
  name : String
  parent_folder_id : Option Nat
  path : Option String
  is_root : Bool
  deriving Repr, DecidableEq

/-- The synthetic root entry added when `include_root` is true:
`{id: None, name: "/", path: "/", parent: None, is_root: True}`. -/
def rootFolderEntry : FolderEntry :=
  { id := none, name := "/", parent_folder_id := none, path := some "/", is_root := true }

/-- `build_folder_paths(folders, include_root)`:  the optional synthetic root
entry followed by a copy of every folder with its computed `path`. -/
def build_folder_paths (folders : List Folder) (include_root : Bool) : List FolderEntry :=
  (if include_root then [rootFolderEntry] else []) ++
    folders.map (fun f =>
      { id := some f.id, name := f.name, parent_folder_id := f.parent_folder_id,
        path := get_path folders f, is_root := false })

/-- How a parent-chain walk ends: at a null parent (`root`) or at a parent id
absent from the folder map (`dangling`). -/
inductive ChainStop where
  | root : ChainStop
  | dangling (i : Nat) : ChainStop
  deriving Repr, DecidableEq

/-- Specification-level description of the parent chain starting at parent
pointer `pid`: `ids` are the resolved folder ids from leaf-most to root-most
and `names` the corresponding folder names in root-to-leaf order (the order
in which `get_path` prepends them).  The `cons` side condition `i ∉ ids`
states that the chain never revisits an id — this is the "acyclic parent
pointers" assumption of the specification. -/
inductive Chain (folders : List Folder) : Option Nat → List Nat → List String → ChainStop → Prop where
  | root : Chain folders none [] [] .root
  | dangling {i : Nat} : folderMapLookup folders i = none →
      Chain folders (some i) [] [] (.dangling i)
  | cons {i : Nat} {p : Folder} {ids : List Nat} {names : List String} {e : ChainStop} :
      folderMapLookup folders i = some p →
      Chain folders p.parent_folder_id ids names e →
      i ∉ ids →
      Chain folders (some i) (i :: ids) (names ++ [p.name]) e

/-- The ids the `get_path` loop resolves, in visiting order, within `fuel`
iterations (plus the id whose resolution the exhausted loop was about to
follow).  Used to exhibit the cycle behind a non-terminating walk. -/
def walkIds (folders : List Folder) (pid : Option Nat) (fuel : Nat) : List Nat :=
  match pid with
  | none => []
  | some i =>
    match folderMapLookup folders i with
    | none => []
    | some p =>
      match fuel with
      | 0 => [i]
      | fuel' + 1 => i :: walkIds folders p.parent_folder_id fuel'

/-- An item record (script / typed entity): only the fields read by
`build_item_paths` are modelled (`name`, nullable `folder_id`). -/
structure Item where
  name : String
  folder_id : Option Nat
  deriving Repr, DecidableEq

/-- A folder entry as consumed by `build_item_paths`: it carries the id field
(the synthetic root has id `None`) and an optional `path` field
(`f.get("path", "/")` defaults a missing path to `"/"`). -/
structure PathedFolder where
  id : Option Nat
  path : Option String
  deriving Repr, DecidableEq

/-- `folder_paths = {f[folder_lookup_field]: f.get("path", "/") for f in folders}`
restricted to a non-null key: dict comprehension keeps the last entry for a
duplicated key. -/
def itemPathLookup (folders : List PathedFolder) (fid : Nat) : Option String :=
  (folders.reverse.find? (fun f => f.id == some fid)).map (fun f => f.path.getD "/")

/-- An item with its computed `path` field attached. -/
structure ItemEntry where
  name : String
  folder_id : Option Nat
  path : String
  deriving Repr, DecidableEq

/-- `build_item_paths(items, folders)`: resolvable folder reference gives
`"<folder path>/<item name>"`, a null or unresolvable reference gives
`"/<item name>"`. -/
def build_item_paths (items : List Item) (folders : List PathedFolder) : List ItemEntry :=
  items.map (fun it =>
    match it.folder_id with
    | some fid =>
      match itemPathLookup folders fid with
      | some p => { name := it.name, folder_id := it.folder_id, path := p ++ "/" ++ it.name }
      | none => { name := it.name, folder_id := it.folder_id, path := "/" ++ it.name }
    | none => { name := it.name, folder_id := it.folder_id, path := "/" ++ it.name })

/-! ## Response Governor (`utils.check_response_size`) -/

/-- JSON values, the payloads handed to `json.dumps` by this code base. -/
inductive JVal where
  | null
  | jbool (b : Bool)
  | num (n : Int)
  | str (s : String)
  | arr (xs : List JVal)
  | obj (fields : List (String × JVal))

/-- A lowercase hexadecimal digit, as produced by Python's `\uXXXX` escapes. -/
def hexDigit (n : Nat) : Char := if n < 10 then Char.ofNat (48 + n) else Char.ofNat (87 + n)

/-- Python `json` escaping of one character with `ensure_ascii=False`:
quote, backslash and control characters are escaped, everything else
(including non-ASCII) is kept raw. -/
def jsonEscapeChar (c : Char) : List Char :=
  if c = '"' then ['\\', '"']
  else if c = '\\' then ['\\', '\\']
  else if c = '\n' then ['\\', 'n']
  else if c = '\t' then ['\\', 't']
  else if c = '\r' then ['\\', 'r']
  else if c = '\x08' then ['\\', 'b']
  else if c = '\x0c' then ['\\', 'f']
  else if c.toNat < 0x20 then
    ['\\', 'u', '0', '0', hexDigit (c.toNat / 16), hexDigit (c.toNat % 16)]
  else [c]

/-- A JSON string literal: `"` + escaped characters + `"`. -/
def jsonQuote (s : String) : String :=
  "\"" ++ String.mk (s.data.map jsonEscapeChar).flatten ++ "\""

/-- `n` spaces of indentation. -/
def spaces (n : Nat) : String := String.mk (List.replicate n ' ')

mutual
/-- `json.dumps(v, indent=2, ensure_ascii=False)` at nesting depth `level`:
containers break elements onto their own lines indented by `2 * (level+1)`,
with the closing bracket indented by `2 * level`. -/
def jdump : JVal → Nat → String
  | .null, _ => "null"
  | .jbool b, _ => if b then "true" else "false"
  | .num n, _ => toString n
  | .str s, _ => jsonQuote s
  | .arr [], _ => "[]"
  | .arr (x :: xs), level =>
      "[\n" ++ String.intercalate ",\n" (jdumpList (x :: xs) (level + 1)) ++ "\n" ++
        spaces (2 * level) ++ "]"
  | .obj [], _ => "\x7b\x7d"
  | .obj (f :: fs), level =>
      "\x7b\n" ++ String.intercalate ",\n" (jdumpFields (f :: fs) (level + 1)) ++ "\n" ++
        spaces (2 * level) ++ "\x7d"

/-- The serialized elements of a JSON array, each on its own indented line. -/
def jdumpList : List JVal → Nat → List String
  | [], _ => []
  | x :: xs, level => (spaces (2 * level) ++ jdump x level) :: jdumpList xs level

/-- The serialized `"key": value` members of a JSON object. -/
def jdumpFields : List (String × JVal) → Nat → List String
  | [], _ => []
  | (k, v) :: xs, level =>
      (spaces (2 * level) ++ jsonQuote k ++ ": " ++ jdump v level) :: jdumpFields xs level
end

/-- `len(json_str.encode("utf-8"))`. -/
def utf8Len (s : String) : Nat := s.data.foldl (fun n c => n + c.utf8Size) 0

/-- `DEFAULT_MAX_RESPONSE_SIZE = 10 * 1024`. -/
def DEFAULT_MAX_RESPONSE_SIZE : Nat := 10 * 1024

/-- The payload of a `ResponseTooLargeError`: the actual byte size and the
limit that was exceeded. -/
structure ResponseTooLarge where
  size : Nat
  limit : Nat
  deriving Repr, DecidableEq

/-- `check_response_size(data, limit)`: serialize to JSON
(`indent=2, ensure_ascii=False`), measure the UTF-8 byte length, raise
`ResponseTooLargeError(size, effective_limit)` when it exceeds the
effective limit (the argument, defaulting to the module-wide
`_max_response_size` passed here as `maxResponseSize`), and return the
JSON text otherwise. -/
def check_response_size (maxResponseSize : Nat) (data : JVal) (limit : Option Nat) :
    Except ResponseTooLarge String :=
  let effective_limit := limit.getD maxResponseSize
  let json_str := jdump data 0
  let size := utf8Len json_str
  if size > effective_limit then .error ⟨size, effective_limit⟩ else .ok json_str

/-! ## Code Search Engine (`utils.search_in_code`)

The `re` module is external: a compiled pattern is abstracted as a span
function `String → List (Nat × Nat)` (the `(m.start(), m.end())` pairs of
`finditer`, in character positions, which is how Python indexes strings),
and `re.compile` as an engine that may fail (`none` models `re.error`).
The fallback `re.compile(re.escape(query), flags)` — an escaped literal —
always succeeds and matches exactly the non-overlapping left-to-right
substring occurrences of the query; it is implemented concretely below.
`re.IGNORECASE` is modelled as `Char.toLower` folding. -/

/-- Case folding for `re.IGNORECASE`: identity when case-sensitive. -/
def foldChar (case_sensitive : Bool) (c : Char) : Char :=
  if case_sensitive then c else c.toLower

/-- Non-overlapping left-to-right occurrences of the (already folded) literal
`q` in `code`, scanning from position `i`; an empty literal matches at every
position including the end, exactly as `finditer` of an empty pattern.
`fuel` is one more than the number of remaining characters, which always
suffices since every step consumes at least one character or ends. -/
def literalSpansAux (q : List Char) (code : List Char) (i fuel : Nat) : List (Nat × Nat) :=
  match fuel with
  | 0 => []
  | fuel' + 1 =>
    match code with
    | [] => if q.isEmpty then [(i, i)] else []
    | c :: rest =>
      if q.isPrefixOf (c :: rest) then
        match q with
        | [] => (i, i) :: literalSpansAux q rest (i + 1) fuel'
        | _ :: qrest =>
            (i, i + q.length) :: literalSpansAux q (rest.drop qrest.length) (i + q.length) fuel'
      else literalSpansAux q rest (i + 1) fuel'

/-- `re.finditer` of the escaped-literal query: substring occurrences. -/
def literalSpans (query code : String) (case_sensitive : Bool) : List (Nat × Nat) :=
  let cd := code.data.map (foldChar case_sensitive)
  literalSpansAux (query.data.map (foldChar case_sensitive)) cd 0 (cd.length + 1)

/-- The abstract `re` engine: `re.compile(query, flags)` either yields a span
function or fails (`re.error`). -/
abbrev RegexEngine := String → Bool → Option (String → List (Nat × Nat))

/-- `try: pattern = re.compile(query, flags) except re.error: pattern =
re.compile(re.escape(query), flags)`. -/
def patternOf (engine : RegexEngine) (query : String) (case_sensitive : Bool) :
    String → List (Nat × Nat) :=
  match engine query case_sensitive with
  | some m => m
  | none => fun code => literalSpans query code case_sensitive

/-- A searched item is a Python dict of string-valued fields. -/
abbrev SearchItem := List (String × String)

/-- `item.get(k)` on a string-valued dict. -/
def lookupField (it : SearchItem) (k : String) : Option String :=
  (it.find? (fun kv => kv.1 == k)).map (fun kv => kv.2)

/-- Python `code[a:b]` on character positions. -/
def sliceChars (s : String) (a b : Nat) : String :=
  String.mk ((s.data.drop a).take (b - a))

/-- One reported match: `{"position": m.start(), "context": code[start:end]}`
with `start = max(0, m.start() - 50)` (truncated subtraction on `Nat` equals
the `max`) and `end = min(len(code), m.end() + 50)`. -/
structure MatchInfo where
  position : Nat
  context : String
  deriving Repr, DecidableEq

/-- The context window around one span. -/
def windowOf (code : String) (sp : Nat × Nat) : MatchInfo :=
  { position := sp.1, context := sliceChars code (sp.1 - 50) (min code.data.length (sp.2 + 50)) }

/-- One entry of the list returned by `search_in_code`: the item's fields
(the `"code"` key stripped unless `include_code`), the match count, the
searched field name, and the context windows. -/
structure SearchResult where
  fields : List (String × String)
  match_count : Nat
  matched_in : String
  match_entries : List MatchInfo
  deriving Repr, DecidableEq

/-- `search_in_code(items, query, code_field, case_sensitive, include_code)`:
items whose searched field is empty or absent are skipped; matching items
yield their fields (without `"code"` unless `include_code`), the match
count and up to 5 context windows. -/
def search_in_code (engine : RegexEngine) (items : List SearchItem) (query code_field : String)
    (case_sensitive include_code : Bool) : List SearchResult :=
  let pattern := patternOf engine query case_sensitive
  items.filterMap (fun item =>
    let code := (lookupField item code_field).getD ""
    if code = "" then none
    else
      let ms := pattern code
      if ms.isEmpty then none
      else some
        { fields := item.filter (fun kv => kv.1 != "code" || include_code)
          match_count := ms.length
          matched_in := code_field
          match_entries := (ms.take 5).map (windowOf code) })

/-- An engine on which every compilation fails (`re.error`); used to witness
the literal-substring fallback. -/
def engineFail : RegexEngine := fun _ _ => none

/-- Concrete items for the C8 witness. -/
def searchItemsEx : List SearchItem :=
  [[("name", "a"), ("code", "x(x(")], [("name", "b"), ("code", "")], [("name", "c")]]

/-! ## Transport Core (`client.GimsClient`)

The HTTP transport is external; a response is modelled by its status code,
whether its content type declares JSON, and its parsed JSON body (`none`
models a parse failure).  The environment supplies the response to the
`n`-th issue of the original request and the response of the token-refresh
endpoint.  Network-level exceptions (`httpx.RequestError`) are outside the
model. -/

/-- An HTTP response as observed by `_handle_response`. -/
structure HResponse where
  status : Nat
  is_json_content_type : Bool
  json_body : Option JVal
  deriving Inhabited

/-- The error taxonomy of `client.py`: `GimsAuthError` (unrecoverable) is a
subclass of `GimsApiError`; both carry a status code and a message. -/
inductive GimsError where
  | auth (status : Nat) (message : String)
  | api (status : Nat) (message : String)
  deriving Repr, DecidableEq

/-- The message of the `GimsAuthError` raised when the refresh endpoint
itself answers 401. -/
def refreshAuthErrorMessage : String :=
  "Ошибка аутентификации: токен обновления недействителен. " ++
    "Проверьте учётную запись и получите новые токены в GIMS."

/-- The message of the `GimsApiError` raised when refresh fails otherwise. -/
def refreshApiErrorMessage : String :=
  "Ошибка аутентификации: не удалось обновить токен доступа"

/-- `GimsClient._handle_response`: classify the response.  401/403/404 and
any other status ≥ 400 raise `GimsApiError`; 204 yields no body; a 2xx
response must declare and contain valid JSON. -/
def handle_response (r : HResponse) : Except GimsError (Option JVal) :=
  if r.status == 401 then .error (.api 401 "Authentication failed")
  else if r.status == 403 then .error (.api 403 "Permission denied")
  else if r.status == 404 then .error (.api 404 "Not found")
  else if r.status ≥ 400 then .error (.api r.status "API error")
  else if r.status == 204 then .ok none
  else if !r.is_json_content_type then .error (.api r.status "Invalid response format")
  else
    match r.json_body with
    | some v => .ok (some v)
    | none => .error (.api r.status "Failed to parse JSON response")

/-- The refresh endpoint's response: status plus the `access` and optional
rotated `refresh` tokens of its JSON body (`access = none` covers both a
missing key and an unparsable body). -/
structure RefreshResponse where
  status : Nat
  access : Option String
  refresh : Option String
  deriving Repr, DecidableEq

/-- The mutable credential pair owned by the client. -/
structure ClientState where
  access_token : String
  refresh_token : String
  deriving Repr, DecidableEq

/-- `GimsClient._refresh_access_token`: a 401 from the refresh endpoint is a
fatal `GimsAuthError`; any non-200 status (or a 200 without an `access`
token) is a `GimsApiError`; on success the access token is replaced and the
refresh token rotated only if the server returned one. -/
def refresh_access_token (r : RefreshResponse) (st : ClientState) :
    Except GimsError ClientState :=
  if r.status == 401 then .error (.auth 401 refreshAuthErrorMessage)
  else if r.status != 200 then .error (.api r.status refreshApiErrorMessage)
  else
    match r.access with
    | none => .error (.api r.status refreshApiErrorMessage)
    | some a => .ok { access_token := a, refresh_token := r.refresh.getD st.refresh_token }

/-- The environment of one `_request` call: `primary n` is the response the
server gives to the `n`-th issue of the original request, `refreshResp`
the response of the token-refresh endpoint. -/
structure RequestEnv where
  primary : Nat → HResponse
  refreshResp : RefreshResponse

/-- The observable outcome of `GimsClient._request`: the returned value or
raised error, how many times the original request was issued, how many
times the refresh flow ran, and the final credential pair. -/
structure RequestTrace where
  result : Except GimsError (Option JVal)
  primary_requests : Nat
  refresh_calls : Nat
  final_state : ClientState

/-- `GimsClient._request`: issue the request; on a 401 run the refresh flow
once and, if it succeeds, rebuild the client with the new tokens and retry
exactly once, classifying whatever the retry returns; every other first
response is classified directly. -/
def request_with_refresh (env : RequestEnv) (st : ClientState) : RequestTrace :=
  let r0 := env.primary 0
  if r0.status == 401 then
    match refresh_access_token env.refreshResp st with
    | .error e => { result := .error e, primary_requests := 1, refresh_calls := 1, final_state := st }
    | .ok st' =>
      let r1 := env.primary 1
      { result := handle_response r1, primary_requests := 2, refresh_calls := 1,
        final_state := st' }
  else
    { result := handle_response r0, primary_requests := 1, refresh_calls := 0, final_state := st }

/-! ## Streaming log contract (`client.GimsClient.stream_sse`)

One SSE session is a scripted sequence of connection attempts.  Each
attempt carries the monotonic-clock value at which the `while True` loop
(re)connects, the HTTP status of the connection, the timed lines produced
by `aiter_lines`, and how the line iteration ends: the server closing the
stream (`aiter_lines` finishing) or an `httpx.ReadTimeout`.  Clock values
are `Nat`; the Python check `time.monotonic() - start_time >= timeout` is
`t - start ≥ timeout` with truncated subtraction (the monotonic clock never
runs backwards past `start`).  The token-refresh side effect of a
mid-stream 401 is not tracked, only its control flow (reconnect). -/

/-- Python `s.startswith(pre)` on character lists (kernel-reducible). -/
def pyStartsWith (s pre : String) : Bool := pre.data.isPrefixOf s.data

/-- Python `s[n:]` on character positions. -/
def pyDrop (s : String) (n : Nat) : String := String.mk (s.data.drop n)

/-- How one connection's line iteration ends. -/
inductive StreamEnd where
  | eof
  | readTimeout
  deriving Repr, DecidableEq

/-- One scripted connection attempt. -/
structure SConn where
  connect_time : Nat
  status : Nat
  lines : List (Nat × String)
  end_event : StreamEnd
  end_time : Nat
  deriving Repr, DecidableEq

/-- Why the generator finished. -/
inductive StreamTerminal where
  | deadline
  | streamEnded
  | connError (status : Nat)
  | scriptEnd
  deriving Repr, DecidableEq

/-- The `async for line in response.aiter_lines()` body: before every line
the overall deadline is checked (a reached deadline ends the whole
generator), and lines starting with `"data:"` yield their remainder
(`line[5:]`).  Returns the yielded payloads and whether the deadline check
fired. -/
def runItems (start timeout : Nat) : List (Nat × String) → List String × Bool
  | [] => ([], false)
  | (t, s) :: rest =>
    if t - start ≥ timeout then ([], true)
    else
      let r := runItems start timeout rest
      if pyStartsWith s "data:" then ((pyDrop s 5) :: r.1, r.2) else r

/-- The `while True` reconnect loop of `stream_sse`: check the overall
deadline before connecting; a 401 refreshes the token and reconnects; a
non-200 status raises; otherwise iterate the lines — if the iteration ends
with the server closing the stream the generator returns (`streamEnded`),
and on a read timeout it reconnects with the remaining script if the
deadline has not elapsed. -/
def runStream (start timeout : Nat) : List SConn → List String × StreamTerminal
  | [] => ([], .scriptEnd)
  | c :: rest =>
    if c.connect_time - start ≥ timeout then ([], .deadline)
    else if c.status == 401 then runStream start timeout rest
    else if c.status != 200 then ([], .connError c.status)
    else
      let pr := runItems start timeout c.lines
      if pr.2 then (pr.1, .deadline)
      else
        match c.end_event with
        | .eof => (pr.1, .streamEnded)
        | .readTimeout =>
          if c.end_time - start ≥ timeout then (pr.1, .deadline)
          else
            let r := runStream start timeout rest
            (pr.1 ++ r.1, r.2)

/-- A scripted connection whose stream the server closes after one event,
long before the overall deadline. -/
def sconnEof1 : SConn :=
  { connect_time := 0, status := 200, lines := [(1, "data:a")], end_event := .eof, end_time := 2 }

/-- A second scripted connection, available for reconnection, carrying a
further event before the deadline. -/
def sconnEof2 : SConn :=
  { connect_time := 3, status := 200, lines := [(4, "data:b")], end_event := .eof, end_time := 5 }

/-! ## Export Serializer / Import Deserializer (`serializers.py`)

An exported document set maps relative paths to file contents.  The YAML
codec is external and faithful for the document shapes this code base
writes (`yaml.dump` / `yaml.safe_load` of string/bool-valued mappings), so
file contents are modelled structurally: a YAML document is its parsed
shape, a `code.py` file is raw text.  API records are modelled with the
fields the serializers read; optional-with-default lookups (`.get`) become
plain fields holding the defaulted value, and `updated_at` stays optional
because its presence changes the output (`gims_updated_at` is only written
when truthy). -/

/-- Python truthiness of an optional string (`if d.get("updated_at"):`):
a missing key and an empty string are both falsy. -/
def pyTruthy (o : Option String) : Bool :=
  match o with
  | some s => s != ""
  | none => false

/-- Python `a or b` for an optional/defaulted string `a`. -/
def pyOr (o : Option String) (d : String) : String :=
  match o with
  | some s => if s = "" then d else s
  | none => d

/-- A property record from the GIMS API (`serialize_property` input). -/
structure Property where
  name : String
  label : String
  value_type_name : String
  default_value : String
  section_name : String
  is_required : Bool
  is_hidden : Bool
  is_inner : Bool
  description : String
  updated_at : Option String
  deriving Repr, DecidableEq

/-- A method parameter record from the GIMS API. -/
structure Parameter where
  label : String
  input_type : Bool
  value_type_name : String
  default_value : String
  description : String
  is_hidden : Bool
  updated_at : Option String
  deriving Repr, DecidableEq

/-- A datasource-type method from the GIMS API with its parameters. -/
structure DsMethod where
  name : String
  label : String
  description : String
  code : String
  updated_at : Option String
  parameters : List Parameter
  deriving Repr, DecidableEq

/-- A datasource type from the GIMS API with properties and methods. -/
structure DsType where
  name : String
  description : String
  version : String
  folder_path : String
  updated_at : Option String
  properties : List Property
  methods : List DsMethod
  deriving Repr, DecidableEq

/-- A serialized property as written to `properties.yaml` (the YAML key
`section` is spelled `section_name` here because `section` is a Lean
keyword). -/
structure SerProp where
  name : String
  label : String
  value_type : String
  default_value : String
  section_name : String
  is_required : Bool
  is_hidden : Bool
  is_inner : Bool
  description : String
  gims_updated_at : Option String
  deriving Repr, DecidableEq

/-- A serialized parameter as written to `params.yaml`. -/
structure SerParam where
  label : String
  input_type : Bool
  value_type : String
  default_value : String
  description : String
  is_hidden : Bool
  gims_updated_at : Option String
  deriving Repr, DecidableEq

/-- `serialize_property`: map API identifiers to their human-readable names
(`value_type_name` → `value_type`, `section_name` → `section`), defaulting
booleans to `False` and strings to `""` (`section` to `"Основные"` — the
defaults are pre-applied in the `Property` model), and record
`gims_updated_at` only when truthy. -/
def serialize_property (p : Property) : SerProp :=
  { name := p.name, label := p.label, value_type := p.value_type_name,
    default_value := p.default_value, section_name := p.section_name,
    is_required := p.is_required, is_hidden := p.is_hidden, is_inner := p.is_inner,
    description := p.description,
    gims_updated_at := if pyTruthy p.updated_at then p.updated_at else none }

/-- `serialize_parameter`: same name-based mapping for method parameters. -/
def serialize_parameter (p : Parameter) : SerParam :=
  { label := p.label, input_type := p.input_type, value_type := p.value_type_name,
    default_value := p.default_value, description := p.description,
    is_hidden := p.is_hidden,
    gims_updated_at := if pyTruthy p.updated_at then p.updated_at else none }

/-- The parsed shape of a type-level `meta.yaml`. -/
structure TypeMeta where
  name : String
  description : String
  version : String
  gims_folder : String
  exported_at : String
  exported_from : String
  gims_updated_at : Option String
  deriving Repr, DecidableEq

/-- The parsed shape of a per-method `meta.yaml` (its `code_file` and
`params_file` entries are the constants `"code.py"` / `"params.yaml"`). -/
structure MethodMeta where
  name : String
  label : String
  description : String
  gims_updated_at : Option String
  deriving Repr, DecidableEq

/-- One file of a document set: a parsed YAML document or raw source text. -/
inductive Doc where
  | typeMeta (m : TypeMeta)
  | methodMeta (m : MethodMeta)
  | propsDoc (props : List SerProp)
  | paramsDoc (params : List SerParam)
  | textDoc (s : String)
  deriving Repr, DecidableEq

/-- A document set: the `files` dict mapping relative path to content. -/
abbrev FileSet := List (String × Doc)

/-- Python dict assignment `files[k] = v`: overwrite in place if the key
exists, append otherwise. -/
def dictInsert (fs : FileSet) (k : String) (v : Doc) : FileSet :=
  if fs.any (fun e => e.1 == k) then fs.map (fun e => if e.1 == k then (k, v) else e)
  else fs ++ [(k, v)]

/-- Python dict lookup `files.get(k)` (keys are unique in a dict, so the
first match is the binding). -/
def dictLookup (fs : FileSet) (k : String) : Option Doc :=
  (fs.find? (fun e => e.1 == k)).map (fun e => e.2)

/-- The `meta.yaml` document of `serialize_datasource_type`.  The export
timestamp (`datetime.now`) enters as the `exported_at` argument. -/
def typeMetaDoc (t : DsType) (gims_url exported_at : String) : Doc :=
  .typeMeta
    { name := t.name, description := t.description, version := t.version,
      gims_folder := t.folder_path, exported_at := exported_at, exported_from := gims_url,
      gims_updated_at := if pyTruthy t.updated_at then t.updated_at else none }

/-- The per-method `meta.yaml` document. -/
def methodMetaDoc (m : DsMethod) : Doc :=
  .methodMeta
    { name := m.name, label := m.label, description := m.description,
      gims_updated_at := if pyTruthy m.updated_at then m.updated_at else none }

/-- The loop body of `serialize_datasource_type`: the three file assignments
for one method. -/
def serMethodStep (fs : FileSet) (m : DsMethod) : FileSet :=
  dictInsert
    (dictInsert
      (dictInsert fs ("methods/" ++ m.label ++ "/meta.yaml") (methodMetaDoc m))
      ("methods/" ++ m.label ++ "/code.py") (.textDoc m.code))
    ("methods/" ++ m.label ++ "/params.yaml")
    (.paramsDoc (m.parameters.map serialize_parameter))

/-- `serialize_datasource_type(type_data, gims_url)`: `meta.yaml`,
`properties.yaml`, then `methods/<label>/{meta.yaml,code.py,params.yaml}`
per method. -/
def serialize_datasource_type (t : DsType) (gims_url exported_at : String) : FileSet :=
  let files := dictInsert [] "meta.yaml" (typeMetaDoc t gims_url exported_at)
  let files := dictInsert files "properties.yaml"
    (.propsDoc (t.properties.map serialize_property))
  t.methods.foldl serMethodStep files

/-- The first two files of a serialized datasource type, as a plain list. -/
def baseFiles (t : DsType) (gims_url exported_at : String) : FileSet :=
  [("meta.yaml", typeMetaDoc t gims_url exported_at),
   ("properties.yaml", .propsDoc (t.properties.map serialize_property))]

/-- The three files of one method, as a plain list. -/
def methodFiles (m : DsMethod) : FileSet :=
  [("methods/" ++ m.label ++ "/meta.yaml", methodMetaDoc m),
   ("methods/" ++ m.label ++ "/code.py", .textDoc m.code),
   ("methods/" ++ m.label ++ "/params.yaml", .paramsDoc (m.parameters.map serialize_parameter))]


/-- `yaml.safe_load(files.get("meta.yaml", "{}"))` followed by `.get`s with
defaults: a missing or ill-shaped document gives the defaults
(`name=""`, `description=""`, `version="1.0"`). -/
def getTypeMeta : Option Doc → TypeMeta
  | some (.typeMeta m) => m
  | _ => { name := "", description := "", version := "1.0", gims_folder := "",
           exported_at := "", exported_from := "", gims_updated_at := none }

/-- `yaml.safe_load(files.get("properties.yaml", "properties: []"))` then
`.get("properties", [])`. -/
def getProps : Option Doc → List SerProp
  | some (.propsDoc ps) => ps
  | _ => []

/-- Splitting a character list at every occurrence of `c` (Python
`str.split` with a one-character separator). -/
def splitOnChar (c : Char) : List Char → List (List Char)
  | [] => [[]]
  | x :: xs =>
    let r := splitOnChar c xs
    if x = c then [] :: r
    else
      match r with
      | [] => [[x]]
      | h :: t => (x :: h) :: t

/-- Python `path.split("/")`. -/
def pySplitSlash (s : String) : List String := (splitOnChar '/' s.data).map String.mk

/-- Python `"/" in s`. -/
def pyContainsChar (s : String) (c : Char) : Bool := s.data.contains c

/-- First-occurrence deduplication: the deterministic rendering of the
`method_folders` set (Python iterates a `set`, whose order is unspecified;
the model fixes insertion order). -/
def dedupFirst (seen : List String) : List String → List String
  | [] => []
  | x :: xs => if seen.contains x then dedupFirst seen xs else x :: dedupFirst (x :: seen) xs

/-- The per-key test of the `method_folders` collection loop:
`path.startswith("methods/") and "/" in path[8:]` selects the key and
`path.split("/")[1]` is the label. -/
def methodFolderKeyLabel (path : String) : Option String :=
  if pyStartsWith path "methods/" && pyContainsChar (pyDrop path 8) '/' then
    some ((pySplitSlash path).getD 1 "")
  else none

/-- The method-folder labels of a document set: every key of the form
`methods/<label>/...`, deduplicated. -/
def methodFolderLabels (fs : FileSet) : List String :=
  dedupFirst [] ((fs.map (fun e => e.1)).filterMap methodFolderKeyLabel)

/-- A deserialized method: an API-ready method payload. -/
structure DeserMethod where
  name : String
  label : String
  description : String
  code : String
  parameters : List SerParam
  deriving Repr, DecidableEq

/-- `yaml.safe_load` of a per-method `meta.yaml` followed by
`.get("name", label)` / `.get("label", label)` / `.get("description", "")`. -/
def methodMetaFields (label : String) : Doc → String × String × String
  | .methodMeta m => (m.name, m.label, m.description)
  | _ => (label, label, "")

/-- One method of `deserialize_datasource_type`: built only when
`methods/<label>/meta.yaml` is present; the code defaults to `"# No code"`
and the parameters to `[]`. -/
def deserialize_method (fs : FileSet) (label : String) : Option DeserMethod :=
  match dictLookup fs ("methods/" ++ label ++ "/meta.yaml") with
  | none => none
  | some doc =>
    let mm := methodMetaFields label doc
    some
      { name := mm.1, label := mm.2.1, description := mm.2.2,
        code :=
          match dictLookup fs ("methods/" ++ label ++ "/code.py") with
          | some (.textDoc s) => s
          | _ => "# No code",
        parameters :=
          match dictLookup fs ("methods/" ++ label ++ "/params.yaml") with
          | some (.paramsDoc ps) => ps
          | _ => [] }

/-- The result of `deserialize_datasource_type`: an API-ready payload. -/
structure DsDeser where
  name : String
  description : String
  version : String
  properties : List SerProp
  methods : List DeserMethod
  deriving Repr, DecidableEq

/-- `deserialize_datasource_type(files)`. -/
def deserialize_datasource_type (fs : FileSet) : DsDeser :=
  let meta := getTypeMeta (dictLookup fs "meta.yaml")
  { name := meta.name, description := meta.description, version := meta.version,
    properties := getProps (dictLookup fs "properties.yaml"),
    methods := (methodFolderLabels fs).filterMap (deserialize_method fs) }

/-- The deserialized image of one method whose document set round-trips. -/
def expectedMethod (m : DsMethod) : DeserMethod :=
  { name := m.name, label := m.label, description := m.description, code := m.code,
    parameters := m.parameters.map serialize_parameter }

/-- Field-level agreement of a round-tripped property with the original API
record: names, flags and descriptions are preserved, the type and section
references by their human-readable names, and the source's `updated_at`
whenever it was truthy. -/
def propAgrees (p : Property) (sp : SerProp) : Prop :=
  sp.name = p.name ∧ sp.label = p.label ∧ sp.value_type = p.value_type_name ∧
  sp.default_value = p.default_value ∧ sp.section_name = p.section_name ∧
  sp.is_required = p.is_required ∧ sp.is_hidden = p.is_hidden ∧ sp.is_inner = p.is_inner ∧
  sp.description = p.description ∧
  sp.gims_updated_at = (if pyTruthy p.updated_at then p.updated_at else none)

/-- Field-level agreement of a round-tripped parameter. -/
def paramAgrees (p : Parameter) (sp : SerParam) : Prop :=
  sp.label = p.label ∧ sp.input_type = p.input_type ∧ sp.value_type = p.value_type_name ∧
  sp.default_value = p.default_value ∧ sp.description = p.description ∧
  sp.is_hidden = p.is_hidden ∧
  sp.gims_updated_at = (if pyTruthy p.updated_at then p.updated_at else none)

/-- Field-level agreement of a round-tripped method, including all its
parameters. -/
def methodAgrees (m : DsMethod) (dm : DeserMethod) : Prop :=
  dm.name = m.name ∧ dm.label = m.label ∧ dm.description = m.description ∧
  dm.code = m.code ∧ List.Forall₂ paramAgrees m.parameters dm.parameters

/-- A datasource type whose single method label contains `/`: the C1
counterexample input. -/
def slashLabelType : DsType :=
  { name := "T", description := "", version := "1.0", folder_path := "/", updated_at := none,
    properties := [],
    methods := [{ name := "M", label := "a/b", description := "", code := "pass",
                  updated_at := none, parameters := [] }] }

/-- A concrete datasource type for the C1 witness. -/
def sampleDsType : DsType :=
  { name := "Sensor", description := "d", version := "2.0", folder_path := "/f",
    updated_at := some "2024-01-01",
    properties := [{ name := "Host", label := "host", value_type_name := "String",
                     default_value := "", section_name := "Основные", is_required := true,
                     is_hidden := false, is_inner := false, description := "",
                     updated_at := none }],
    methods := [{ name := "Read", label := "read", description := "", code := "pass",
                  updated_at := none,
                  parameters := [{ label := "x", input_type := true, value_type_name := "Int",
                                   default_value := "", description := "", is_hidden := false,
                                   updated_at := none }] }] }

/-! ## Import Reconciler (`tools/sync.py`, `validators.py`)

The import tools are modelled as functions from an explicit remote
environment (the listings, reference tables, and the id the server assigns
to created records) to a structured outcome plus the trace of remote
mutations issued.  `ast.parse` is a machine-external oracle returning
`none` for syntactically valid code and the `SyntaxError`'s line number and
message otherwise.  Error strings keep the source's structure with the
quote punctuation elided. -/

/-- A remote record as seen by name-based lookups: `{id, name}`. -/
structure RemoteItem where
  id : Nat
  name : String
  deriving Repr, DecidableEq

/-- The data of a `SyntaxError` raised by `ast.parse`. -/
structure SynErr where
  lineno : Nat
  msg : String
  deriving Repr, DecidableEq

/-- The `ast.parse` oracle: `none` means the code parses. -/
abbrev AstOracle := String → Option SynErr

/-- The message built by `validators.validate_python_syntax` on failure:
the syntax problem with its line number. -/
def syntaxErrorMessage (e : SynErr) : String :=
  "Синтаксическая ошибка в строке " ++ toString e.lineno ++ ": " ++ e.msg

/-- `validate_python_syntax(code)`: `(True, None)` when `ast.parse`
succeeds, `(False, message-with-line-number)` on a `SyntaxError`. -/
def validate_python_syntax (astParse : AstOracle) (code : String) : Bool × Option String :=
  match astParse code with
  | none => (true, none)
  | some e => (false, some (syntaxErrorMessage e))

/-- The remote environment one import call runs against. -/
structure ImportEnv where
  scripts : List RemoteItem
  ds_types : List RemoteItem
  act_types : List RemoteItem
  value_types : List RemoteItem
  sections : List RemoteItem
  astParse : AstOracle
  created_id : Nat

/-- `next((s for s in items if s["name"] == name), None)`. -/
def findByName (items : List RemoteItem) (name : String) : Option RemoteItem :=
  items.find? (fun s => s.name == name)

/-- `{vt["name"]: vt["id"]}.get(name)`: a Python dict comprehension keeps
the last entry for a duplicated name. -/
def lookupIdByName (items : List RemoteItem) (name : String) : Option Nat :=
  (items.reverse.find? (fun it => it.name == name)).map (fun it => it.id)

/-- One remote write, with the request payload the client method sends. -/
inductive Mutation where
  | createScript (name code : String) (folder_id : Option Nat)
  | updateScript (id : Nat) (code : String)
  | createDsType (name description version : String)
  | updateDsType (id : Nat) (description version : String)
  | createDsProperty (mds_type_id : Nat) (name label : String)
      (value_type_id section_name_id : Nat) (description default_value : String)
      (is_required is_hidden : Bool)
  | createActProperty (activator_type_id : Nat) (name label : String)
      (value_type_id section_name_id : Nat) (description default_value : String)
      (is_required is_hidden : Bool)
  | createMethod (mds_type_id : Nat) (name label code description : String)
  | createParameter (method_id : Nat) (label : String) (value_type_id : Nat)
      (input_type : Bool) (default_value description : String) (is_hidden : Bool)
  | createActType (name code description version : String)
  | updateActType (id : Nat) (code description version : String)
  deriving Repr, DecidableEq

/-- The per-child result dict of `_import_properties`. -/
structure ChildImportResult where
  created : Nat
  skipped : Nat
  errors : List String
  deriving Repr, DecidableEq

/-- The per-child result dict of `_import_methods`. -/
structure MethodImportResult where
  created : Nat
  parameters_created : Nat
  errors : List String
  deriving Repr, DecidableEq

/-- The structured outcome an import handler serializes into its response
(before the response governor). -/
inductive ImportOutcome where
  | syntaxError (methodLabel : Option String) (message : String)
  | conflict (name : String) (existing_id : Nat) (suggestion : String)
  | scriptDone (action : String) (script_id : Nat) (name : String)
  | dsTypeDone (action : String) (type_id : Nat) (name : String)
      (properties : ChildImportResult) (methods : MethodImportResult)
  | actTypeDone (action : String) (type_id : Nat) (name : String)
      (properties : ChildImportResult)
  deriving Repr, DecidableEq

/-- The conflict suggestion text: rename via `target_name` or pass
`update_existing=true`. -/
def conflictSuggestion : String :=
  "Используйте target_name для создания с другим именем или update_existing=true"

/-- `_import_properties`: resolve each property's value-type and section
names once against the fetched maps; an unresolvable name is a per-child
skip with a recorded error; a resolvable property issues a create request
(whose server-side success is assumed by the model). -/
def import_properties (value_types sections : List RemoteItem) (type_id : Nat)
    (props : List SerProp) (is_datasource : Bool) : ChildImportResult × List Mutation :=
  props.foldl
    (fun st prop =>
      let res := st.1
      match lookupIdByName value_types prop.value_type with
      | none =>
        ({ res with
           skipped := res.skipped + 1,
           errors := res.errors ++
             ["Property " ++ prop.name ++ ": unknown value_type " ++ prop.value_type] }, st.2)
      | some value_type_id =>
        match lookupIdByName sections prop.section_name with
        | none =>
          ({ res with
             skipped := res.skipped + 1,
             errors := res.errors ++
               ["Property " ++ prop.name ++ ": unknown section " ++ prop.section_name] }, st.2)
        | some section_id =>
          ({ res with created := res.created + 1 },
            st.2 ++ [if is_datasource then
              .createDsProperty type_id prop.name prop.label value_type_id section_id
                prop.description prop.default_value prop.is_required prop.is_hidden
            else
              .createActProperty type_id prop.name prop.label value_type_id section_id
                prop.description prop.default_value prop.is_required prop.is_hidden]))
    (⟨0, 0, []⟩, [])

/-- `_import_methods`: create each method, then its parameters, resolving
each parameter's value-type name; an unresolvable name is a recorded
per-parameter error.  The id the server assigns to the created method is
the environment's `created_id`. -/
def import_methods (value_types : List RemoteItem) (type_id created_method_id : Nat)
    (methods : List DeserMethod) : MethodImportResult × List Mutation :=
  methods.foldl
    (fun st m =>
      let afterCreate :=
        ({ st.1 with created := st.1.created + 1 },
          st.2 ++ [Mutation.createMethod type_id m.name m.label m.code m.description])
      m.parameters.foldl
        (fun st2 param =>
          match lookupIdByName value_types param.value_type with
          | none =>
            ({ st2.1 with errors := st2.1.errors ++
               ["Method " ++ m.label ++ " param " ++ param.label ++
                 ": unknown value_type " ++ param.value_type] }, st2.2)
          | some value_type_id =>
            ({ st2.1 with parameters_created := st2.1.parameters_created + 1 },
              st2.2 ++ [Mutation.createParameter created_method_id param.label value_type_id
                param.input_type param.default_value param.description param.is_hidden]))
        afterCreate)
    (⟨0, 0, []⟩, [])

/-- The `for method in data.get("methods", [])` validation loop of
`_import_datasource_type`: the first method whose code fails `ast.parse`,
with the error. -/
def firstInvalidMethod (astParse : AstOracle) : List DeserMethod → Option (DeserMethod × SynErr)
  | [] => none
  | m :: rest =>
    match astParse m.code with
    | some e => some (m, e)
    | none => firstInvalidMethod astParse rest

/-- `_import_script(meta_yaml, code, target_name, target_folder_id,
update_existing)`: validate the code, resolve the name (`target_name or
meta.get("name", "Unnamed Script")`), check for an existing script of that
name, then conflict / update / create.  `meta_name` is the `name` entry of
the parsed `meta.yaml` (absent key = `none`). -/
def import_script (env : ImportEnv) (meta_name : Option String) (code : String)
    (target_name : Option String) (target_folder_id : Option Nat) (update_existing : Bool) :
    ImportOutcome × List Mutation :=
  match env.astParse code with
  | some e => (.syntaxError none (syntaxErrorMessage e), [])
  | none =>
    let name := pyOr target_name (meta_name.getD "Unnamed Script")
    match findByName env.scripts name with
    | some existing =>
      if update_existing then
        (.scriptDone "updated" existing.id name, [.updateScript existing.id code])
      else (.conflict name existing.id conflictSuggestion, [])
    | none =>
      (.scriptDone "created" env.created_id name,
        [.createScript name code target_folder_id])

/-- `_import_datasource_type(files, target_name, update_existing)`:
deserialize, validate every method body, check for an existing type by
name, then conflict / update+children / create+children. -/
def import_datasource_type (env : ImportEnv) (files : FileSet) (target_name : Option String)
    (update_existing : Bool) : ImportOutcome × List Mutation :=
  let data := deserialize_datasource_type files
  let name := pyOr target_name data.name
  match firstInvalidMethod env.astParse data.methods with
  | some me => (.syntaxError (some me.1.label) (syntaxErrorMessage me.2), [])
  | none =>
    match findByName env.ds_types name with
    | some existing =>
      if update_existing then
        let pr := import_properties env.value_types env.sections existing.id
          data.properties true
        let mr := import_methods env.value_types existing.id env.created_id data.methods
        (.dsTypeDone "updated" existing.id name pr.1 mr.1,
          [.updateDsType existing.id data.description data.version] ++ pr.2 ++ mr.2)
      else (.conflict name existing.id conflictSuggestion, [])
    | none =>
      let pr := import_properties env.value_types env.sections env.created_id
        data.properties true
      let mr := import_methods env.value_types env.created_id env.created_id data.methods
      (.dsTypeDone "created" env.created_id name pr.1 mr.1,
        [.createDsType name data.description data.version] ++ pr.2 ++ mr.2)

/-- The result of `deserialize_activator_type`. -/
structure ActDeser where
  name : String
  description : String
  version : String
  code : String
  properties : List SerProp
  deriving Repr, DecidableEq

/-- `deserialize_activator_type(files)`: meta fields, the `code.py` text
(default `"# No code"`), and the `properties.yaml` list. -/
def deserialize_activator_type (fs : FileSet) : ActDeser :=
  let meta := getTypeMeta (dictLookup fs "meta.yaml")
  { name := meta.name, description := meta.description, version := meta.version,
    code :=
      match dictLookup fs "code.py" with
      | some (.textDoc s) => s
      | _ => "# No code",
    properties := getProps (dictLookup fs "properties.yaml") }

/-- `_import_activator_type(files, target_name, update_existing)`. -/
def import_activator_type (env : ImportEnv) (files : FileSet) (target_name : Option String)
    (update_existing : Bool) : ImportOutcome × List Mutation :=
  let data := deserialize_activator_type files
  let name := pyOr target_name data.name
  let code := data.code
  match env.astParse code with
  | some e => (.syntaxError none (syntaxErrorMessage e), [])
  | none =>
    match findByName env.act_types name with
    | some existing =>
      if update_existing then
        let pr := import_properties env.value_types env.sections existing.id
          data.properties false
        (.actTypeDone "updated" existing.id name pr.1,
          [.updateActType existing.id code data.description data.version] ++ pr.2)
      else (.conflict name existing.id conflictSuggestion, [])
    | none =>
      let pr := import_properties env.value_types env.sections env.created_id
        data.properties false
      (.actTypeDone "created" env.created_id name pr.1,
        [.createActType name code data.description data.version] ++ pr.2)

/-- A Python-invalid code body (`ast.parse` raises `SyntaxError`). -/
def brokenCode : String := "def broken(\n    pass"

/-- A concrete remote environment for the C4/C5 witnesses: one existing
script `X`, datasource type `T` and activator type `A`; the `ast.parse`
oracle rejects exactly `brokenCode` at line 1. -/
def importEnvEx : ImportEnv :=
  { scripts := [⟨7, "X"⟩], ds_types := [⟨3, "T"⟩], act_types := [⟨5, "A"⟩],
    value_types := [⟨1, "String"⟩], sections := [⟨2, "Основные"⟩],
    astParse := fun c => if c = brokenCode then some ⟨1, "invalid syntax"⟩ else none,
    created_id := 100 }

/-- A `meta.yaml` document for a type of the given name. -/
def metaDocNamed (n : String) : Doc :=
  .typeMeta { name := n, description := "", version := "1.0", gims_folder := "/",
              exported_at := "", exported_from := "", gims_updated_at := none }

/-- A minimal datasource-type document set named `T`. -/
def dsFilesEx : FileSet := [("meta.yaml", metaDocNamed "T")]

/-- A minimal activator-type document set named `A`. -/
def actFilesEx : FileSet := [("meta.yaml", metaDocNamed "A"), ("code.py", .textDoc "pass")]

/-- A datasource-type document set whose single method body is invalid. -/
def dsBadFilesEx : FileSet :=
  [("meta.yaml", metaDocNamed "T"),
   ("methods/m1/meta.yaml",
     .methodMeta { name := "M", label := "m1", description := "", gims_updated_at := none }),
   ("methods/m1/code.py", .textDoc brokenCode)]

/-! # Theorems -/

@[simp] theorem getPathParts_none (folders : List Folder) (acc : List String) (fuel : Nat) :
    getPathParts folders none acc fuel = some acc := by
  unfold getPathParts; rfl

theorem getPathParts_unresolved {folders : List Folder} {i : Nat}
    (h : folderMapLookup folders i = none) (acc : List String) (fuel : Nat) :
    getPathParts folders (some i) acc fuel = some acc := by
  unfold getPathParts; rw [h]

theorem getPathParts_step {folders : List Folder} {i : Nat} {p : Folder}
    (h : folderMapLookup folders i = some p) (acc : List String) (fuel : Nat) :
    getPathParts folders (some i) acc (fuel + 1) =
      getPathParts folders p.parent_folder_id (p.name :: acc) fuel := by
  conv_lhs => unfold getPathParts
  rw [h]

/-- Chain walks and the fuel-based loop agree: a chain of `k` resolved ids is
computed by the loop given at least `k` units of fuel. -/
theorem chain_getPathParts {folders : List Folder} {pid : Option Nat} {ids : List Nat}
    {names : List String} {e : ChainStop}
    (h : Chain folders pid ids names e) :
    ∀ acc fuel, ids.length ≤ fuel →
      getPathParts folders pid acc fuel = some (names ++ acc) := by
  induction h with
  | root => intro acc fuel _; simp
  | dangling hl => intro acc fuel _; simp [getPathParts_unresolved hl]
  | cons hl _ _ ih =>
    intro acc fuel hfuel
    match fuel with
    | fuel' + 1 =>
      rw [getPathParts_step hl]
      rw [ih (_ :: acc) fuel' (by simpa using Nat.le_of_succ_le_succ hfuel)]
      simp

/-- Every id visited by a chain is the id of some folder in the list. -/
theorem chain_ids_mem {folders : List Folder} {pid : Option Nat} {ids : List Nat}
    {names : List String} {e : ChainStop}
    (h : Chain folders pid ids names e) :
    ∀ i ∈ ids, ∃ g ∈ folders, g.id = i := by
  induction h with
  | root => simp
  | dangling _ => simp
  | cons hl _ hnotmem ih =>
    intro j hj
    rcases List.mem_cons.mp hj with rfl | hj
    · have hmem := List.mem_reverse.mp (List.mem_of_find?_eq_some hl)
      have hid : _ = true := List.find?_some hl
      exact ⟨_, hmem, by simpa using hid⟩
    · exact ih j hj

/-- The visited ids of a chain are pairwise distinct. -/
theorem chain_ids_nodup {folders : List Folder} {pid : Option Nat} {ids : List Nat}
    {names : List String} {e : ChainStop}
    (h : Chain folders pid ids names e) : ids.Nodup := by
  induction h with
  | root => simp
  | dangling _ => simp
  | cons _ _ hnotmem ih => exact List.nodup_cons.mpr ⟨hnotmem, ih⟩

/-- A duplicate-free list of folder ids is no longer than the folder list. -/
theorem nodup_ids_length_le {folders : List Folder} {ids : List Nat}
    (hnd : ids.Nodup) (hmem : ∀ i ∈ ids, ∃ g ∈ folders, g.id = i) :
    ids.length ≤ folders.length := by
  classical
  have hsub : ids.toFinset ⊆ (folders.map Folder.id).toFinset := by
    intro i hi
    rcases hmem i (List.mem_toFinset.mp hi) with ⟨g, hg, rfl⟩
    exact List.mem_toFinset.mpr (List.mem_map_of_mem _ hg)
  calc ids.length = ids.toFinset.card := (List.toFinset_card_of_nodup hnd).symm
    _ ≤ (folders.map Folder.id).toFinset.card := Finset.card_le_card hsub
    _ ≤ (folders.map Folder.id).length := (folders.map Folder.id).toFinset_card_le
    _ = folders.length := List.length_map _ _

/-- For a chain that terminates (in either way), `get_path` returns the
`/`-joined path: names root-to-leaf followed by the folder's own name. -/
theorem get_path_of_chain {folders : List Folder} {f : Folder} {ids : List Nat}
    {names : List String} {e : ChainStop}
    (h : Chain folders f.parent_folder_id ids names e) :
    get_path folders f = some ("/" ++ String.intercalate "/" (names ++ [f.name])) := by
  have hlen : ids.length ≤ folders.length :=
    nodup_ids_length_le (chain_ids_nodup h) (chain_ids_mem h)
  unfold get_path
  rw [chain_getPathParts h [f.name] folders.length hlen]
  rfl

/-- If the loop exhausts its fuel, it resolved `fuel + 1` ids, all of them
ids of folders in the list. -/
theorem walkIds_of_exhausted {folders : List Folder} :
    ∀ fuel pid acc, getPathParts folders pid acc fuel = none →
      (walkIds folders pid fuel).length = fuel + 1 ∧
        ∀ i ∈ walkIds folders pid fuel, ∃ g ∈ folders, g.id = i := by
  intro fuel
  induction fuel with
  | zero =>
    intro pid acc h
    match pid with
    | none => simp at h
    | some i =>
      match hl : folderMapLookup folders i with
      | none => rw [getPathParts_unresolved hl] at h; simp at h
      | some p =>
        have hmem := List.mem_reverse.mp (List.mem_of_find?_eq_some hl)
        have hid : _ = true := List.find?_some hl
        constructor
        · simp [walkIds, hl]
        · intro j hj
          simp [walkIds, hl] at hj
          exact hj ▸ ⟨p, hmem, by simpa using hid⟩
  | succ fuel' ih =>
    intro pid acc h
    match pid with
    | none => simp at h
    | some i =>
      match hl : folderMapLookup folders i with
      | none => rw [getPathParts_unresolved hl] at h; simp at h
      | some p =>
        rw [getPathParts_step hl] at h
        have hrec := ih p.parent_folder_id (p.name :: acc) h
        have hmem := List.mem_reverse.mp (List.mem_of_find?_eq_some hl)
        have hid : _ = true := List.find?_some hl
        constructor
        · simp [walkIds, hl, hrec.1]
        · intro j hj
          simp only [walkIds, hl] at hj
          rcases List.mem_cons.mp hj with rfl | hj
          · exact ⟨p, hmem, by simpa using hid⟩
          · exact hrec.2 j hj

/-- C6: for every folder list with acyclic, fully resolvable parent pointers
(witnessed by a `Chain … .root` derivation), `build_folder_paths` assigns
the folder the path `"/"` followed by the `/`-joined names of its ancestors
from root to leaf followed by its own name; a folder with a null parent
gets `"/<name>"`. -/
theorem claim_C6_folder_paths (folders : List Folder) (include_root : Bool)
    (f : Folder) (ids : List Nat) (names : List String)
    (hf : f ∈ folders) (hchain : Chain folders f.parent_folder_id ids names .root) :
    ({ id := some f.id, name := f.name, parent_folder_id := f.parent_folder_id,
       path := some ("/" ++ String.intercalate "/" (names ++ [f.name])),
       is_root := false } : FolderEntry) ∈ build_folder_paths folders include_root ∧
    (f.parent_folder_id = none →
      ({ id := some f.id, name := f.name, parent_folder_id := none,
         path := some ("/" ++ f.name), is_root := false } : FolderEntry)
        ∈ build_folder_paths folders include_root) := by
  have hp := get_path_of_chain hchain
  constructor
  · refine List.mem_append_right _ ?_
    exact List.mem_map.mpr ⟨f, hf, by rw [hp]⟩
  · intro hpar
    have hpnone : get_path folders f = some ("/" ++ f.name) := by
      unfold get_path
      rw [hpar, getPathParts_none]
      rfl
    refine List.mem_append_right _ ?_
    exact List.mem_map.mpr ⟨f, hf, by rw [hpnone, hpar]⟩

/-- Witness for C6 at a concrete two-level folder tree. -/
theorem claim_C6_folder_paths_witness :
    ({ id := some 2, name := "sub", parent_folder_id := some 1,
       path := some "/top/sub", is_root := false } : FolderEntry)
      ∈ build_folder_paths [⟨1, "top", none⟩, ⟨2, "sub", some 1⟩] true := by
  have hch : Chain [⟨1, "top", none⟩, ⟨2, "sub", some 1⟩] (some 1) [1] ["top"] .root := by
    have : Chain [⟨1, "top", none⟩, ⟨2, "sub", some 1⟩] none [] [] .root := Chain.root
    simpa using Chain.cons (p := ⟨1, "top", none⟩) (by decide) this (by simp)
  have h := (claim_C6_folder_paths [⟨1, "top", none⟩, ⟨2, "sub", some 1⟩] true
      ⟨2, "sub", some 1⟩ [1] ["top"] (by simp) hch).1
  simpa using h

/-- C7: for every item list and folder list, `build_item_paths` assigns an
item whose folder reference resolves the path `"<folder path>/<item name>"`,
and an item with a null or unresolvable folder reference the path
`"/<item name>"`. -/
theorem claim_C7_item_paths (items : List Item) (folders : List PathedFolder)
    (it : Item) (hit : it ∈ items) :
    (∀ fid p, it.folder_id = some fid → itemPathLookup folders fid = some p →
      ({ name := it.name, folder_id := it.folder_id, path := p ++ "/" ++ it.name } : ItemEntry)
        ∈ build_item_paths items folders) ∧
    ((it.folder_id = none ∨ ∃ fid, it.folder_id = some fid ∧ itemPathLookup folders fid = none) →
      ({ name := it.name, folder_id := it.folder_id, path := "/" ++ it.name } : ItemEntry)
        ∈ build_item_paths items folders) := by
  constructor
  · intro fid p hfid hlook
    exact List.mem_map.mpr ⟨it, hit, by rw [hfid]; simp [hlook, ← hfid]⟩
  · intro hcase
    rcases hcase with hnone | ⟨fid, hfid, hlook⟩
    · exact List.mem_map.mpr ⟨it, hit, by rw [hnone]⟩
    · exact List.mem_map.mpr ⟨it, hit, by rw [hfid]; simp [hlook, ← hfid]⟩

/-- Witness for C7: one resolvable and one unresolvable item. -/
theorem claim_C7_item_paths_witness :
    ({ name := "s1", folder_id := some 1, path := "/docs/s1" } : ItemEntry)
      ∈ build_item_paths [⟨"s1", some 1⟩, ⟨"s2", some 9⟩] [⟨some 1, some "/docs"⟩] ∧
    ({ name := "s2", folder_id := some 9, path := "/s2" } : ItemEntry)
      ∈ build_item_paths [⟨"s1", some 1⟩, ⟨"s2", some 9⟩] [⟨some 1, some "/docs"⟩] := by
  constructor
  · exact (claim_C7_item_paths _ [⟨some 1, some "/docs"⟩] ⟨"s1", some 1⟩ (by simp)).1
      1 "/docs" rfl (by decide)
  · exact (claim_C7_item_paths _ [⟨some 1, some "/docs"⟩] ⟨"s2", some 9⟩ (by simp)).2
      (Or.inr ⟨9, rfl, by decide⟩)

/-- C10: the `build_folder_paths` walk terminates when a parent reference is
dangling — it stops at the first unresolvable parent with the names
accumulated so far — and a walk that fails to terminate (models the Python
`while` loop never exiting) visits a repeated folder id, every visited id
being present in the list: only a fully present cyclic chain diverges. -/
theorem claim_C10_termination :
    (∀ (folders : List Folder) (f : Folder) (ids : List Nat) (names : List String) (j : Nat),
      Chain folders f.parent_folder_id ids names (.dangling j) →
      get_path folders f = some ("/" ++ String.intercalate "/" (names ++ [f.name]))) ∧
    (∀ (folders : List Folder) (f : Folder), get_path folders f = none →
      ¬(walkIds folders f.parent_folder_id folders.length).Nodup ∧
        ∀ i ∈ walkIds folders f.parent_folder_id folders.length, ∃ g ∈ folders, g.id = i) := by
  constructor
  · intro folders f ids names j h
    exact get_path_of_chain h
  · intro folders f h
    have hnone : getPathParts folders f.parent_folder_id [f.name] folders.length = none := by
      unfold get_path at h
      exact Option.map_eq_none'.mp h
    have hw := walkIds_of_exhausted folders.length f.parent_folder_id [f.name] hnone
    refine ⟨fun hnd => ?_, hw.2⟩
    have := nodup_ids_length_le hnd hw.2
    omega

/-- Witness for C10: a dangling parent yields a root-relative path, and a
self-referential cycle exhausts the walk with a repeated id. -/
theorem claim_C10_termination_witness :
    get_path [⟨1, "a", some 99⟩] ⟨1, "a", some 99⟩ = some "/a" ∧
    ¬(walkIds [⟨1, "b", some 1⟩] (some 1) 1).Nodup := by
  constructor
  · have h := claim_C10_termination.1 [⟨1, "a", some 99⟩] ⟨1, "a", some 99⟩ [] [] 99
      (Chain.dangling (by decide))
    simpa using h
  · exact (claim_C10_termination.2 [⟨1, "b", some 1⟩] ⟨1, "b", some 1⟩ (by decide)).1

/-- C3: for every payload and configured byte limit, the response governor
returns the serialized JSON text when its UTF-8 byte length is at most the
limit (a payload of exactly the limit passes) and raises
`ResponseTooLargeError` carrying both the actual size and the limit when
the length exceeds it; a payload one byte over fails with
`actual = limit + 1`. -/
theorem claim_C3_response_governor (g : Nat) (data : JVal) (limit : Option Nat) :
    (utf8Len (jdump data 0) ≤ limit.getD g →
      check_response_size g data limit = .ok (jdump data 0)) ∧
    (utf8Len (jdump data 0) > limit.getD g →
      check_response_size g data limit = .error ⟨utf8Len (jdump data 0), limit.getD g⟩) ∧
    (utf8Len (jdump data 0) = limit.getD g + 1 →
      check_response_size g data limit = .error ⟨limit.getD g + 1, limit.getD g⟩) := by
  refine ⟨fun h => ?_, fun h => ?_, fun h => ?_⟩
  · simp only [check_response_size]
    rw [if_neg (by omega)]
  · simp only [check_response_size]
    rw [if_pos (by omega)]
  · simp only [check_response_size]
    rw [if_pos (by omega), h]

/-- Witness for C3: `"abcd"` serializes to 6 bytes; it passes at limit 6 and
fails at limit 5 with actual size `6 = 5 + 1`. -/
theorem claim_C3_response_governor_witness :
    check_response_size DEFAULT_MAX_RESPONSE_SIZE (.str "abcd") (some 6) = .ok "\"abcd\"" ∧
    check_response_size DEFAULT_MAX_RESPONSE_SIZE (.str "abcd") (some 5) = .error ⟨6, 5⟩ := by
  constructor
  · have h := (claim_C3_response_governor DEFAULT_MAX_RESPONSE_SIZE (.str "abcd") (some 6)).1
      (by decide)
    simpa using h
  · have h := (claim_C3_response_governor DEFAULT_MAX_RESPONSE_SIZE (.str "abcd") (some 5)).2.2
      (by decide)
    simpa using h

/-- C8: `search_in_code` never returns an item whose searched field is empty
or absent; every returned context window lies within the field's bounds
(the window start is the match start minus at most 50, truncated at 0, and
the window end is at most the field length and at most 50 past the match
end); at most 5 windows are returned per item; and when the query fails to
compile as a regex, the pattern used is the escaped-literal substring
matcher, so the search is total on malformed queries. -/
theorem claim_C8_search (engine : RegexEngine) (items : List SearchItem)
    (query code_field : String) (case_sensitive include_code : Bool) :
    (∀ r ∈ search_in_code engine items query code_field case_sensitive include_code,
      ∃ it ∈ items, ∃ c, lookupField it code_field = some c ∧ c ≠ "" ∧
        r.fields = it.filter (fun kv => kv.1 != "code" || include_code) ∧
        r.match_entries.length ≤ 5 ∧
        ∀ w ∈ r.match_entries, ∃ sp ∈ patternOf engine query case_sensitive c,
          w.position = sp.1 ∧
          w.context = sliceChars c (sp.1 - 50) (min c.data.length (sp.2 + 50)) ∧
          sp.1 - (sp.1 - 50) ≤ 50 ∧
          min c.data.length (sp.2 + 50) ≤ c.data.length ∧
          min c.data.length (sp.2 + 50) - sp.2 ≤ 50) ∧
    (engine query case_sensitive = none →
      ∀ code, patternOf engine query case_sensitive code = literalSpans query code case_sensitive) := by
  constructor
  · intro r hr
    rcases List.mem_filterMap.mp hr with ⟨it, hit, hf⟩
    simp only at hf
    rcases hlk : lookupField it code_field with - | c
    · rw [hlk] at hf; simp at hf
    · rw [hlk] at hf
      simp only [Option.getD_some] at hf
      by_cases hc : c = ""
      · rw [if_pos (by simpa using hc)] at hf; exact absurd hf (by simp)
      · rw [if_neg (by simpa using hc)] at hf
        by_cases hms : (patternOf engine query case_sensitive c).isEmpty
        · rw [if_pos hms] at hf; exact absurd hf (by simp)
        · rw [if_neg hms] at hf
          refine ⟨it, hit, c, hlk, hc, ?_⟩
          obtain rfl := Option.some.inj hf
          refine ⟨rfl, ?_, ?_⟩
          · simp
          · intro w hw
            rcases List.mem_map.mp hw with ⟨sp, hsp, rfl⟩
            exact ⟨sp, List.mem_of_mem_take hsp, rfl, rfl, by omega,
              Nat.min_le_left _ _, by omega⟩
  · intro h code
    simp [patternOf, h]

/-- Witness for C8: a concrete run where regex compilation fails (query `"("`),
exercising the skip-empty, window and literal-fallback properties. -/
theorem claim_C8_search_witness :
    (∃ it ∈ searchItemsEx, ∃ c, lookupField it "code" = some c ∧ c ≠ "") ∧
    patternOf engineFail "(" false "x(x(" = literalSpans "(" "x(x(" false := by
  constructor
  · obtain ⟨it, hit, c, hc, hne, -⟩ :=
      (claim_C8_search engineFail searchItemsEx "(" "code" false false).1
        { fields := [("name", "a")], match_count := 2, matched_in := "code",
          match_entries := [{ position := 1, context := "x(x(" },
                            { position := 3, context := "x(x(" }] }
        (by decide)
    exact ⟨it, hit, c, hc, hne⟩
  · exact (claim_C8_search engineFail searchItemsEx "(" "code" false false).2 rfl "x(x("

/-- C2: on a first response of 401 the refresh flow runs exactly once; if it
succeeds the original request is retried exactly once and the retry's
classified result is returned (with the rebuilt credential state); a 401 on
the retry is surfaced as an error with no further retry; and a 401 from the
refresh endpoint itself fails permanently with `GimsAuthError` after a
single issue of the original request. -/
theorem claim_C2_token_refresh (env : RequestEnv) (st : ClientState)
    (h401 : (env.primary 0).status = 401) :
    (request_with_refresh env st).refresh_calls = 1 ∧
    (∀ st', refresh_access_token env.refreshResp st = .ok st' →
      (request_with_refresh env st).primary_requests = 2 ∧
      (request_with_refresh env st).result = handle_response (env.primary 1) ∧
      (request_with_refresh env st).final_state = st') ∧
    (∀ st', refresh_access_token env.refreshResp st = .ok st' →
      (env.primary 1).status = 401 →
      (request_with_refresh env st).result = .error (.api 401 "Authentication failed")) ∧
    (env.refreshResp.status = 401 →
      (request_with_refresh env st).result = .error (.auth 401 refreshAuthErrorMessage) ∧
      (request_with_refresh env st).primary_requests = 1) := by
  refine ⟨?_, ?_, ?_, ?_⟩
  · simp only [request_with_refresh, h401]
    cases hres : refresh_access_token env.refreshResp st <;> simp [hres]
  · intro st' hok
    simp only [request_with_refresh, h401]
    simp [hok]
  · intro st' hok hretry
    simp only [request_with_refresh, h401]
    simp [hok, handle_response, hretry]
  · intro hdead
    have herr : refresh_access_token env.refreshResp st =
        .error (.auth 401 refreshAuthErrorMessage) := by
      simp [refresh_access_token, hdead]
    simp only [request_with_refresh, h401]
    simp [herr]

/-- Environment for the C2 witness: first response 401 then 200, refresh
endpoint healthy. -/
def envRefreshOk : RequestEnv :=
  { primary := fun n =>
      if n = 0 then { status := 401, is_json_content_type := true, json_body := none }
      else { status := 200, is_json_content_type := true, json_body := some (.str "ok") },
    refreshResp := { status := 200, access := some "newtok", refresh := none } }

/-- Environment for the C2 witness: first response 401, refresh endpoint
answering 401 (expired refresh token). -/
def envRefreshDead : RequestEnv :=
  { primary := fun n =>
      if n = 0 then { status := 401, is_json_content_type := true, json_body := none }
      else { status := 200, is_json_content_type := true, json_body := some (.str "ok") },
    refreshResp := { status := 401, access := none, refresh := none } }

/-- Witness for C2: with a healthy refresh endpoint the retried request's
payload is returned after exactly two issues; with a dead refresh token the
call fails with `GimsAuthError` after exactly one issue. -/
theorem claim_C2_token_refresh_witness :
    (request_with_refresh envRefreshOk ⟨"atok", "rtok"⟩).result = .ok (some (.str "ok")) ∧
    (request_with_refresh envRefreshOk ⟨"atok", "rtok"⟩).primary_requests = 2 ∧
    (request_with_refresh envRefreshDead ⟨"atok", "rtok"⟩).result =
      .error (.auth 401 refreshAuthErrorMessage) ∧
    (request_with_refresh envRefreshDead ⟨"atok", "rtok"⟩).primary_requests = 1 := by
  have h1 := (claim_C2_token_refresh envRefreshOk ⟨"atok", "rtok"⟩ rfl).2.1
    ⟨"newtok", "rtok"⟩ rfl
  have h2 := (claim_C2_token_refresh envRefreshDead ⟨"atok", "rtok"⟩ rfl).2.2.2 rfl
  exact ⟨by rw [h1.2.1]; rfl, h1.1, h2.1, h2.2⟩

/-- C9 counterexample: the claim states the loop reconnects transparently on
stream-end as long as the deadline has not elapsed.  Concretely, the first
connection's stream ends at time 2 with deadline 100 and a second
connection would deliver a further event at time 4, yet the generator
stops with only the first event: the code returns on a normal stream end
instead of reconnecting. -/
theorem claim_C9_stream_counterexample :
    runStream 0 100 [sconnEof1, sconnEof2] = (["a"], .streamEnded) ∧
    sconnEof1.end_time - 0 < 100 ∧
    (runStream 0 100 [sconnEof2]).1 = ["b"] := by
  refine ⟨?_, by decide, ?_⟩ <;> rfl

/-- C9 (amended): the loop reconnects transparently on a per-read timeout
(and after a mid-stream 401 refresh) while the overall deadline has not
elapsed, continuing to yield payload lines; on stream-end it terminates
with the lines yielded so far; a reached deadline stops the session. -/
theorem claim_C9_stream_reconnect (start timeout : Nat) (c : SConn) (rest : List SConn) :
    (c.connect_time - start < timeout → c.status = 200 →
      (runItems start timeout c.lines).2 = false → c.end_event = .readTimeout →
      c.end_time - start < timeout →
      runStream start timeout (c :: rest) =
        ((runItems start timeout c.lines).1 ++ (runStream start timeout rest).1,
          (runStream start timeout rest).2)) ∧
    (c.connect_time - start < timeout → c.status = 200 →
      (runItems start timeout c.lines).2 = false → c.end_event = .eof →
      runStream start timeout (c :: rest) =
        ((runItems start timeout c.lines).1, .streamEnded)) ∧
    (c.connect_time - start < timeout → c.status = 401 →
      runStream start timeout (c :: rest) = runStream start timeout rest) ∧
    (c.connect_time - start ≥ timeout →
      runStream start timeout (c :: rest) = ([], .deadline)) := by
  refine ⟨?_, ?_, ?_, ?_⟩
  · intro hconn hstatus hlines hend hread
    simp only [runStream]
    rw [if_neg (by omega), if_neg (by simp [hstatus]), if_neg (by simp [hstatus]),
      if_neg (by simp [hlines]), hend, if_neg (by omega)]
  · intro hconn hstatus hlines hend
    simp only [runStream]
    rw [if_neg (by omega), if_neg (by simp [hstatus]), if_neg (by simp [hstatus]),
      if_neg (by simp [hlines]), hend]
  · intro hconn hstatus
    simp only [runStream]
    rw [if_neg (by omega), if_pos (by simp [hstatus])]
  · intro hconn
    simp only [runStream]
    rw [if_pos (by omega)]

/-- Witness for the amended C9: a read-timeout at time 2 is followed by a
reconnection that keeps yielding, so both events arrive. -/
theorem claim_C9_stream_reconnect_witness :
    runStream 0 100
      [{ connect_time := 0, status := 200, lines := [(1, "data:a")],
         end_event := .readTimeout, end_time := 2 }, sconnEof2] = (["a", "b"], .streamEnded) := by
  have h := (claim_C9_stream_reconnect 0 100
      { connect_time := 0, status := 200, lines := [(1, "data:a")],
        end_event := .readTimeout, end_time := 2 } [sconnEof2]).1
    (by decide) rfl (by decide) rfl (by decide)
  rw [h]
  rfl


theorem dictInsert_fresh {fs : FileSet} {k : String} (v : Doc)
    (h : ∀ e ∈ fs, e.1 ≠ k) : dictInsert fs k v = fs ++ [(k, v)] := by
  unfold dictInsert
  rw [if_neg]
  simp only [List.any_eq_true, beq_iff_eq, not_exists]
  intro e he
  exact h e he.1 he.2

theorem slashfree_append_inj {a b xs ys : List Char} (ha : '/' ∉ a) (hb : '/' ∉ b)
    (h : a ++ '/' :: xs = b ++ '/' :: ys) : a = b ∧ xs = ys := by
  induction a generalizing b with
  | nil =>
    cases b with
    | nil => simpa using h
    | cons d b' =>
      simp only [List.nil_append, List.cons_append, List.cons.injEq] at h
      exact absurd (h.1 ▸ List.mem_cons_self d b') hb
  | cons c a' ih =>
    cases b with
    | nil =>
      simp only [List.cons_append, List.nil_append, List.cons.injEq] at h
      exact absurd (h.1 ▸ List.mem_cons_self c a') ha
    | cons d b' =>
      simp only [List.cons_append, List.cons.injEq] at h
      obtain ⟨rfl, h2⟩ := h
      have := ih (fun hm => ha (List.mem_cons_of_mem _ hm)) (fun hm => hb (List.mem_cons_of_mem _ hm)) h2
      exact ⟨by rw [this.1], this.2⟩

theorem methodKey_data (l suf : String) :
    ("methods/" ++ l ++ suf).data = "methods/".data ++ (l.data ++ suf.data) := by
  simp [String.data_append]

theorem methodKey_inj {l l' suf suf' : String} {t t' : List Char}
    (hl : '/' ∉ l.data) (hl' : '/' ∉ l'.data)
    (hsd : suf.data = '/' :: t) (hsd' : suf'.data = '/' :: t')
    (h : ("methods/" ++ l ++ suf : String) = "methods/" ++ l' ++ suf') : l = l' ∧ t = t' := by
  have hd := congrArg String.data h
  rw [methodKey_data, methodKey_data, hsd, hsd'] at hd
  have hd2 := List.append_cancel_left hd
  have := slashfree_append_inj hl hl' hd2
  exact ⟨String.ext this.1, this.2⟩

theorem meta_ne_methodKey (l suf : String) : ("meta.yaml" : String) ≠ "methods/" ++ l ++ suf := by
  intro h
  have hd := congrArg String.data h
  rw [methodKey_data] at hd
  simp at hd

theorem properties_ne_methodKey (l suf : String) :
    ("properties.yaml" : String) ≠ "methods/" ++ l ++ suf := by
  intro h
  have hd := congrArg String.data h
  rw [methodKey_data] at hd
  simp at hd

theorem key_ne_of_label_ne {l l' : String} (hl : '/' ∉ l.data) (hl' : '/' ∉ l'.data)
    {suf suf' : String} {t t' : List Char}
    (hsd : suf.data = '/' :: t) (hsd' : suf'.data = '/' :: t') (hll : l ≠ l') :
    ("methods/" ++ l ++ suf : String) ≠ "methods/" ++ l' ++ suf' :=
  fun h => hll (methodKey_inj hl hl' hsd hsd' h).1

theorem key_meta_ne_code {l l' : String} (hl : '/' ∉ l.data) (hl' : '/' ∉ l'.data) :
    ("methods/" ++ l ++ "/meta.yaml" : String) ≠ "methods/" ++ l' ++ "/code.py" := by
  intro h
  have hinj := methodKey_inj hl hl' rfl rfl h
  exact absurd hinj.2 (by decide)

theorem key_meta_ne_params {l l' : String} (hl : '/' ∉ l.data) (hl' : '/' ∉ l'.data) :
    ("methods/" ++ l ++ "/meta.yaml" : String) ≠ "methods/" ++ l' ++ "/params.yaml" := by
  intro h
  have hinj := methodKey_inj hl hl' rfl rfl h
  exact absurd hinj.2 (by decide)

theorem key_code_ne_params {l l' : String} (hl : '/' ∉ l.data) (hl' : '/' ∉ l'.data) :
    ("methods/" ++ l ++ "/code.py" : String) ≠ "methods/" ++ l' ++ "/params.yaml" := by
  intro h
  have hinj := methodKey_inj hl hl' rfl rfl h
  exact absurd hinj.2 (by decide)

theorem serMethodStep_eq (fs : FileSet) (m : DsMethod) (hl : '/' ∉ m.label.data)
    (hfresh : ∀ e ∈ fs, ∀ kv ∈ methodFiles m, e.1 ≠ kv.1) :
    serMethodStep fs m = fs ++ methodFiles m := by
  have h1 : ∀ e ∈ fs, e.1 ≠ "methods/" ++ m.label ++ "/meta.yaml" := by
    intro e he
    exact hfresh e he ("methods/" ++ m.label ++ "/meta.yaml", methodMetaDoc m)
      (by simp [methodFiles])
  have h2 : ∀ e ∈ fs ++ [("methods/" ++ m.label ++ "/meta.yaml", methodMetaDoc m)],
      e.1 ≠ "methods/" ++ m.label ++ "/code.py" := by
    intro e he
    rcases List.mem_append.mp he with he | he
    · exact hfresh e he ("methods/" ++ m.label ++ "/code.py", Doc.textDoc m.code)
        (by simp [methodFiles])
    · simp only [List.mem_singleton] at he
      subst he
      exact key_meta_ne_code hl hl
  have h3 : ∀ e ∈ (fs ++ [("methods/" ++ m.label ++ "/meta.yaml", methodMetaDoc m)]) ++
      [("methods/" ++ m.label ++ "/code.py", Doc.textDoc m.code)],
      e.1 ≠ "methods/" ++ m.label ++ "/params.yaml" := by
    intro e he
    rcases List.mem_append.mp he with he | he
    · rcases List.mem_append.mp he with he | he
      · exact hfresh e he
          ("methods/" ++ m.label ++ "/params.yaml",
            Doc.paramsDoc (m.parameters.map serialize_parameter)) (by simp [methodFiles])
      · simp only [List.mem_singleton] at he
        subst he
        exact key_meta_ne_params hl hl
    · simp only [List.mem_singleton] at he
      subst he
      exact key_code_ne_params hl hl
  unfold serMethodStep
  rw [dictInsert_fresh _ h1, dictInsert_fresh _ h2, dictInsert_fresh _ h3]
  simp [methodFiles]

theorem mem_methodFiles_key {m : DsMethod} {kv : String × Doc} (h : kv ∈ methodFiles m) :
    kv.1 = "methods/" ++ m.label ++ "/meta.yaml" ∨
    kv.1 = "methods/" ++ m.label ++ "/code.py" ∨
    kv.1 = "methods/" ++ m.label ++ "/params.yaml" := by
  simp only [methodFiles, List.mem_cons, List.not_mem_nil, or_false] at h
  rcases h with rfl | rfl | rfl <;> simp

theorem foldl_serMethodStep (ms : List DsMethod) (fs : FileSet)
    (hsl : ∀ m ∈ ms, '/' ∉ m.label.data)
    (hnd : (ms.map DsMethod.label).Nodup)
    (hfresh : ∀ m ∈ ms, ∀ e ∈ fs, ∀ kv ∈ methodFiles m, e.1 ≠ kv.1) :
    ms.foldl serMethodStep fs = fs ++ ms.flatMap methodFiles := by
  induction ms generalizing fs with
  | nil => simp
  | cons m rest ih =>
    have hm : '/' ∉ m.label.data := hsl m (List.mem_cons_self m rest)
    have hndrest : (rest.map DsMethod.label).Nodup := (List.nodup_cons.mp (by simpa using hnd)).2
    have hlabm : m.label ∉ rest.map DsMethod.label := (List.nodup_cons.mp (by simpa using hnd)).1
    have hfresh2 : ∀ m' ∈ rest, ∀ e ∈ fs ++ methodFiles m, ∀ kv ∈ methodFiles m', e.1 ≠ kv.1 := by
      intro m' hm' e he kv hkv
      rcases List.mem_append.mp he with he | he
      · exact hfresh m' (List.mem_cons_of_mem m hm') e he kv hkv
      · have hll : m.label ≠ m'.label := by
          intro hh
          exact hlabm (hh ▸ List.mem_map_of_mem DsMethod.label hm')
        have hmsl : '/' ∉ m'.label.data := hsl m' (List.mem_cons_of_mem m hm')
        rcases mem_methodFiles_key he with h1 | h1 | h1 <;>
          rcases mem_methodFiles_key hkv with h2 | h2 | h2 <;>
          rw [h1, h2] <;>
          exact key_ne_of_label_ne hm hmsl rfl rfl hll
    rw [List.foldl_cons, serMethodStep_eq fs m hm (hfresh m (List.mem_cons_self m rest))]
    rw [ih (fs ++ methodFiles m) (fun m' hm' => hsl m' (List.mem_cons_of_mem m hm')) hndrest hfresh2]
    simp

theorem serialize_eq_flat (t : DsType) (gims_url exported_at : String)
    (hsl : ∀ m ∈ t.methods, '/' ∉ m.label.data)
    (hnd : (t.methods.map DsMethod.label).Nodup) :
    serialize_datasource_type t gims_url exported_at =
      baseFiles t gims_url exported_at ++ t.methods.flatMap methodFiles := by
  have h0 : dictInsert ([] : FileSet) "meta.yaml" (typeMetaDoc t gims_url exported_at) =
      [("meta.yaml", typeMetaDoc t gims_url exported_at)] :=
    dictInsert_fresh _ (by simp)
  have hbase : dictInsert (dictInsert [] "meta.yaml" (typeMetaDoc t gims_url exported_at))
      "properties.yaml" (.propsDoc (t.properties.map serialize_property)) =
      baseFiles t gims_url exported_at := by
    rw [h0, dictInsert_fresh _ ?hne]
    · simp [baseFiles]
    case hne =>
      intro e he
      simp only [List.mem_singleton] at he
      subst he
      show ("meta.yaml" : String) ≠ "properties.yaml"
      decide
  have hfresh : ∀ m ∈ t.methods, ∀ e ∈ baseFiles t gims_url exported_at,
      ∀ kv ∈ methodFiles m, e.1 ≠ kv.1 := by
    intro m hm e he kv hkv
    have hbk : e.1 = "meta.yaml" ∨ e.1 = "properties.yaml" := by
      simp only [baseFiles, List.mem_cons, List.not_mem_nil, or_false] at he
      rcases he with rfl | rfl <;> simp
    rcases mem_methodFiles_key hkv with h2 | h2 | h2 <;> rw [h2] <;>
      rcases hbk with h1 | h1 <;> rw [h1]
    · exact meta_ne_methodKey _ _
    · exact properties_ne_methodKey _ _
    · exact meta_ne_methodKey _ _
    · exact properties_ne_methodKey _ _
    · exact meta_ne_methodKey _ _
    · exact properties_ne_methodKey _ _
  show List.foldl serMethodStep
      (dictInsert (dictInsert [] "meta.yaml" (typeMetaDoc t gims_url exported_at))
        "properties.yaml" (.propsDoc (t.properties.map serialize_property))) t.methods =
      baseFiles t gims_url exported_at ++ t.methods.flatMap methodFiles
  rw [hbase, foldl_serMethodStep t.methods _ hsl hnd hfresh]

theorem dictLookup_cons_eq {k : String} {v : Doc} {fs : FileSet} :
    dictLookup ((k, v) :: fs) k = some v := by
  simp [dictLookup, List.find?_cons_of_pos]

theorem dictLookup_cons_ne {k k' : String} {v : Doc} {fs : FileSet} (h : k' ≠ k) :
    dictLookup ((k', v) :: fs) k = dictLookup fs k := by
  unfold dictLookup
  rw [List.find?_cons_of_neg]
  simpa using h

theorem lookup_flatMap_method (ms : List DsMethod)
    (hsl : ∀ m' ∈ ms, '/' ∉ m'.label.data)
    (hnd : (ms.map DsMethod.label).Nodup)
    (m : DsMethod) (hm : m ∈ ms) :
    dictLookup (ms.flatMap methodFiles) ("methods/" ++ m.label ++ "/meta.yaml") =
      some (methodMetaDoc m) ∧
    dictLookup (ms.flatMap methodFiles) ("methods/" ++ m.label ++ "/code.py") =
      some (.textDoc m.code) ∧
    dictLookup (ms.flatMap methodFiles) ("methods/" ++ m.label ++ "/params.yaml") =
      some (.paramsDoc (m.parameters.map serialize_parameter)) := by
  induction ms with
  | nil => simp at hm
  | cons m' rest ih =>
    have hm' : '/' ∉ m'.label.data := hsl m' (List.mem_cons_self m' rest)
    rcases List.mem_cons.mp hm with rfl | hm
    · refine ⟨?_, ?_, ?_⟩
      · show dictLookup (methodFiles m ++ rest.flatMap methodFiles) _ = _
        rw [methodFiles]
        show dictLookup ((_, _) :: _) _ = _
        exact dictLookup_cons_eq
      · show dictLookup (methodFiles m ++ rest.flatMap methodFiles) _ = _
        rw [methodFiles]
        show dictLookup ((_, _) :: (_, _) :: _) _ = _
        rw [dictLookup_cons_ne (key_meta_ne_code hm' hm')]
        exact dictLookup_cons_eq
      · show dictLookup (methodFiles m ++ rest.flatMap methodFiles) _ = _
        rw [methodFiles]
        show dictLookup ((_, _) :: (_, _) :: (_, _) :: _) _ = _
        rw [dictLookup_cons_ne (key_meta_ne_params hm' hm'),
          dictLookup_cons_ne (key_code_ne_params hm' hm')]
        exact dictLookup_cons_eq
    · have hml : '/' ∉ m.label.data := hsl m (List.mem_cons_of_mem m' hm)
      have hll : m'.label ≠ m.label := by
        intro hh
        exact (List.nodup_cons.mp (by simpa using hnd)).1
          (hh ▸ List.mem_map_of_mem DsMethod.label hm)
      have hrec := ih (fun x hx => hsl x (List.mem_cons_of_mem m' hx))
        (List.nodup_cons.mp (by simpa using hnd)).2 hm
      refine ⟨?_, ?_, ?_⟩ <;>
        show dictLookup (methodFiles m' ++ rest.flatMap methodFiles) _ = _ <;>
        rw [methodFiles] <;>
        show dictLookup ((_, _) :: (_, _) :: (_, _) :: _) _ = _
      · rw [dictLookup_cons_ne (key_ne_of_label_ne hm' hml rfl rfl hll),
          dictLookup_cons_ne (key_ne_of_label_ne hm' hml rfl rfl hll),
          dictLookup_cons_ne (key_ne_of_label_ne hm' hml rfl rfl hll)]
        exact hrec.1
      · rw [dictLookup_cons_ne (key_ne_of_label_ne hm' hml rfl rfl hll),
          dictLookup_cons_ne (key_ne_of_label_ne hm' hml rfl rfl hll),
          dictLookup_cons_ne (key_ne_of_label_ne hm' hml rfl rfl hll)]
        exact hrec.2.1
      · rw [dictLookup_cons_ne (key_ne_of_label_ne hm' hml rfl rfl hll),
          dictLookup_cons_ne (key_ne_of_label_ne hm' hml rfl rfl hll),
          dictLookup_cons_ne (key_ne_of_label_ne hm' hml rfl rfl hll)]
        exact hrec.2.2

theorem splitOnChar_sfree {c : Char} : ∀ {l : List Char}, c ∉ l → splitOnChar c l = [l]
  | [], _ => rfl
  | x :: xs, h => by
    have hx : ¬x = c := fun hh => h (hh ▸ List.mem_cons_self x xs)
    have ih := splitOnChar_sfree (l := xs) (fun hm => h (List.mem_cons_of_mem x hm))
    simp [splitOnChar, hx, ih]

theorem splitOnChar_append {c : Char} :
    ∀ {a : List Char}, c ∉ a → ∀ rest, splitOnChar c (a ++ c :: rest) = a :: splitOnChar c rest
  | [], _, rest => by simp [splitOnChar]
  | x :: a', h, rest => by
    have hx : ¬x = c := fun hh => h (hh ▸ List.mem_cons_self x a')
    have ih := splitOnChar_append (a := a') (fun hm => h (List.mem_cons_of_mem x hm)) rest
    simp [splitOnChar, hx, ih]

theorem methodKey_startsWith (l suf : String) :
    pyStartsWith ("methods/" ++ l ++ suf) "methods/" = true := by
  unfold pyStartsWith
  rw [methodKey_data]
  rw [List.isPrefixOf_iff_prefix]
  exact List.prefix_append _ _

theorem methodKey_dropContains (l : String) {t : List Char} (suf : String)
    (hsd : suf.data = '/' :: t) :
    pyContainsChar (pyDrop ("methods/" ++ l ++ suf) 8) '/' = true := by
  unfold pyContainsChar pyDrop
  rw [methodKey_data]
  have h8 : (8 : Nat) = "methods/".data.length := by decide
  rw [h8, List.drop_left]
  simp only [String.data]
  have : '/' ∈ l.data ++ suf.data := by
    rw [hsd]
    exact List.mem_append_right _ (List.mem_cons_self _ _)
  simpa [List.contains] using this

theorem methodKey_label (l : String) (hl : '/' ∉ l.data) {t : List Char} (suf : String)
    (hsd : suf.data = '/' :: t) (ht : '/' ∉ t) :
    (pySplitSlash ("methods/" ++ l ++ suf)).getD 1 "" = l := by
  unfold pySplitSlash
  rw [methodKey_data, hsd]
  have hshape : "methods/".data ++ (l.data ++ '/' :: t) =
      "methods".data ++ '/' :: (l.data ++ '/' :: t) := by
    have : "methods/".data = "methods".data ++ ['/'] := by decide
    rw [this, List.append_assoc]
    rfl
  rw [hshape, splitOnChar_append (by decide) _, splitOnChar_append hl _, splitOnChar_sfree ht]
  rfl

theorem methodFolderKeyLabel_key (l : String) (hl : '/' ∉ l.data) {t : List Char} (suf : String)
    (hsd : suf.data = '/' :: t) (ht : '/' ∉ t) :
    methodFolderKeyLabel ("methods/" ++ l ++ suf) = some l := by
  unfold methodFolderKeyLabel
  rw [if_pos]
  · rw [methodKey_label l hl suf hsd ht]
  · rw [methodKey_startsWith, methodKey_dropContains l suf hsd]
    rfl

theorem labels_of_flat (ms : List DsMethod) (hsl : ∀ m ∈ ms, '/' ∉ m.label.data) :
    ((ms.flatMap methodFiles).map (fun e => e.1)).filterMap methodFolderKeyLabel =
      (ms.map DsMethod.label).flatMap (fun l => [l, l, l]) := by
  induction ms with
  | nil => rfl
  | cons m rest ih =>
    have hm : '/' ∉ m.label.data := hsl m (List.mem_cons_self m rest)
    have ihr := ih (fun x hx => hsl x (List.mem_cons_of_mem m hx))
    show (((methodFiles m ++ rest.flatMap methodFiles).map (fun e => e.1)).filterMap
      methodFolderKeyLabel) = _
    rw [List.map_append, List.filterMap_append, ihr]
    have hthree : ((methodFiles m).map (fun e => e.1)).filterMap methodFolderKeyLabel =
        [m.label, m.label, m.label] := by
      show List.filterMap methodFolderKeyLabel
        ["methods/" ++ m.label ++ "/meta.yaml", "methods/" ++ m.label ++ "/code.py",
          "methods/" ++ m.label ++ "/params.yaml"] = _
      rw [List.filterMap_cons, methodFolderKeyLabel_key m.label hm _ rfl (by decide)]
      rw [List.filterMap_cons, methodFolderKeyLabel_key m.label hm _ rfl (by decide)]
      rw [List.filterMap_cons, methodFolderKeyLabel_key m.label hm _ rfl (by decide)]
      rfl
    rw [hthree]
    rfl

theorem dedupFirst_cons (seen : List String) (x : String) (xs : List String) :
    dedupFirst seen (x :: xs) =
      if seen.contains x then dedupFirst seen xs else x :: dedupFirst (x :: seen) xs := rfl

theorem dedupFirst_triples :
    ∀ (ls : List String) (seen : List String), ls.Nodup →
      (∀ l ∈ ls, seen.contains l = false) →
      dedupFirst seen (ls.flatMap (fun l => [l, l, l])) = ls
  | [], _, _, _ => rfl
  | l :: rest, seen, hnd, hdisj => by
    have hl : seen.contains l = false := hdisj l (List.mem_cons_self l rest)
    show dedupFirst seen (l :: l :: l :: rest.flatMap (fun l => [l, l, l])) = l :: rest
    rw [dedupFirst_cons, if_neg (by rw [hl]; simp)]
    rw [dedupFirst_cons, if_pos (by simp), dedupFirst_cons, if_pos (by simp)]
    have hd : ∀ l' ∈ rest, (l :: seen).contains l' = false := by
      intro l' hl'
      have h1 : l' ∉ seen := by
        have := hdisj l' (List.mem_cons_of_mem l hl')
        simpa [List.contains] using this
      have h2 : ¬l' = l := fun hh => (List.nodup_cons.mp hnd).1 (hh ▸ hl')
      simp [List.contains, h1, h2]
    rw [dedupFirst_triples rest (l :: seen) (List.nodup_cons.mp hnd).2 hd]

theorem filterMap_eq_map_of_forall_some {α β : Type} {f : α → Option β} {g : α → β} :
    ∀ {l : List α}, (∀ a ∈ l, f a = some (g a)) → l.filterMap f = l.map g
  | [], _ => rfl
  | a :: l, h => by
    rw [List.filterMap_cons, h a (List.mem_cons_self a l),
      filterMap_eq_map_of_forall_some (fun x hx => h x (List.mem_cons_of_mem a hx))]
    rfl

theorem deserialize_method_flat (t : DsType) (gims_url exported_at : String)
    (hsl : ∀ m ∈ t.methods, '/' ∉ m.label.data)
    (hnd : (t.methods.map DsMethod.label).Nodup)
    (m : DsMethod) (hm : m ∈ t.methods) :
    deserialize_method (baseFiles t gims_url exported_at ++ t.methods.flatMap methodFiles)
      m.label = some (expectedMethod m) := by
  have hlook := lookup_flatMap_method t.methods hsl hnd m hm
  have h1 : dictLookup (baseFiles t gims_url exported_at ++ t.methods.flatMap methodFiles)
      ("methods/" ++ m.label ++ "/meta.yaml") = some (methodMetaDoc m) := by
    show dictLookup ((_, _) :: (_, _) :: t.methods.flatMap methodFiles) _ = _
    rw [dictLookup_cons_ne (meta_ne_methodKey _ _),
      dictLookup_cons_ne (properties_ne_methodKey _ _)]
    exact hlook.1
  have h2 : dictLookup (baseFiles t gims_url exported_at ++ t.methods.flatMap methodFiles)
      ("methods/" ++ m.label ++ "/code.py") = some (.textDoc m.code) := by
    show dictLookup ((_, _) :: (_, _) :: t.methods.flatMap methodFiles) _ = _
    rw [dictLookup_cons_ne (meta_ne_methodKey _ _),
      dictLookup_cons_ne (properties_ne_methodKey _ _)]
    exact hlook.2.1
  have h3 : dictLookup (baseFiles t gims_url exported_at ++ t.methods.flatMap methodFiles)
      ("methods/" ++ m.label ++ "/params.yaml") =
      some (.paramsDoc (m.parameters.map serialize_parameter)) := by
    show dictLookup ((_, _) :: (_, _) :: t.methods.flatMap methodFiles) _ = _
    rw [dictLookup_cons_ne (meta_ne_methodKey _ _),
      dictLookup_cons_ne (properties_ne_methodKey _ _)]
    exact hlook.2.2
  unfold deserialize_method
  rw [h1, h2, h3]
  rfl

theorem roundtrip_methods (t : DsType) (gims_url exported_at : String)
    (hsl : ∀ m ∈ t.methods, '/' ∉ m.label.data)
    (hnd : (t.methods.map DsMethod.label).Nodup) :
    (deserialize_datasource_type (serialize_datasource_type t gims_url exported_at)).methods =
      t.methods.map expectedMethod := by
  rw [serialize_eq_flat t gims_url exported_at hsl hnd]
  show (methodFolderLabels
      (baseFiles t gims_url exported_at ++ t.methods.flatMap methodFiles)).filterMap
      (deserialize_method (baseFiles t gims_url exported_at ++ t.methods.flatMap methodFiles)) =
      t.methods.map expectedMethod
  have hbasepart : ((baseFiles t gims_url exported_at).map (fun e => e.1)).filterMap
      methodFolderKeyLabel = [] := by
    show List.filterMap methodFolderKeyLabel ["meta.yaml", "properties.yaml"] = []
    decide
  have hlabels : methodFolderLabels
      (baseFiles t gims_url exported_at ++ t.methods.flatMap methodFiles) =
      t.methods.map DsMethod.label := by
    unfold methodFolderLabels
    rw [List.map_append, List.filterMap_append, hbasepart, labels_of_flat t.methods hsl,
      List.nil_append]
    exact dedupFirst_triples (t.methods.map DsMethod.label) [] hnd (fun l _ => rfl)
  rw [hlabels, List.filterMap_map]
  exact filterMap_eq_map_of_forall_some
    (fun m hm => deserialize_method_flat t gims_url exported_at hsl hnd m hm)

theorem forall₂_propAgrees : ∀ ps : List Property,
    List.Forall₂ propAgrees ps (ps.map serialize_property)
  | [] => List.Forall₂.nil
  | _ :: ps =>
    List.Forall₂.cons ⟨rfl, rfl, rfl, rfl, rfl, rfl, rfl, rfl, rfl, rfl⟩
      (forall₂_propAgrees ps)

theorem forall₂_paramAgrees : ∀ ps : List Parameter,
    List.Forall₂ paramAgrees ps (ps.map serialize_parameter)
  | [] => List.Forall₂.nil
  | _ :: ps =>
    List.Forall₂.cons ⟨rfl, rfl, rfl, rfl, rfl, rfl, rfl⟩ (forall₂_paramAgrees ps)

theorem methodAgrees_expected (m : DsMethod) : methodAgrees m (expectedMethod m) :=
  ⟨rfl, rfl, rfl, rfl, forall₂_paramAgrees m.parameters⟩

/-- C1 (amended): for every datasource-type record whose method labels are
`/`-free and pairwise distinct, deserializing the serialized document set
agrees with the original on name, description, version, every property
field, and every method with all its parameter fields; the export timestamp
(`exported_at`) does not enter the comparison. -/
theorem claim_C1_roundtrip (t : DsType) (gims_url exported_at : String)
    (hsl : ∀ m ∈ t.methods, '/' ∉ m.label.data)
    (hnd : (t.methods.map DsMethod.label).Nodup) :
    (deserialize_datasource_type (serialize_datasource_type t gims_url exported_at)).name =
      t.name ∧
    (deserialize_datasource_type (serialize_datasource_type t gims_url exported_at)).description =
      t.description ∧
    (deserialize_datasource_type (serialize_datasource_type t gims_url exported_at)).version =
      t.version ∧
    List.Forall₂ propAgrees t.properties
      (deserialize_datasource_type (serialize_datasource_type t gims_url exported_at)).properties ∧
    (deserialize_datasource_type
        (serialize_datasource_type t gims_url exported_at)).methods.length =
      t.methods.length ∧
    ∀ m ∈ t.methods,
      ∃ dm ∈ (deserialize_datasource_type
        (serialize_datasource_type t gims_url exported_at)).methods, methodAgrees m dm := by
  have hmethods := roundtrip_methods t gims_url exported_at hsl hnd
  have hflat := serialize_eq_flat t gims_url exported_at hsl hnd
  have hmeta : dictLookup (serialize_datasource_type t gims_url exported_at) "meta.yaml" =
      some (typeMetaDoc t gims_url exported_at) := by
    rw [hflat]
    show dictLookup ((_, _) :: (_, _) :: t.methods.flatMap methodFiles) _ = _
    exact dictLookup_cons_eq
  have hprops : dictLookup (serialize_datasource_type t gims_url exported_at)
      "properties.yaml" = some (.propsDoc (t.properties.map serialize_property)) := by
    rw [hflat]
    show dictLookup ((_, _) :: (_, _) :: t.methods.flatMap methodFiles) _ = _
    rw [dictLookup_cons_ne (by decide)]
    exact dictLookup_cons_eq
  refine ⟨?_, ?_, ?_, ?_, ?_, ?_⟩
  · show (getTypeMeta (dictLookup (serialize_datasource_type t gims_url exported_at)
      "meta.yaml")).name = t.name
    rw [hmeta]
    rfl
  · show (getTypeMeta (dictLookup (serialize_datasource_type t gims_url exported_at)
      "meta.yaml")).description = t.description
    rw [hmeta]
    rfl
  · show (getTypeMeta (dictLookup (serialize_datasource_type t gims_url exported_at)
      "meta.yaml")).version = t.version
    rw [hmeta]
    rfl
  · show List.Forall₂ propAgrees t.properties
      (getProps (dictLookup (serialize_datasource_type t gims_url exported_at)
        "properties.yaml"))
    rw [hprops]
    exact forall₂_propAgrees t.properties
  · rw [hmethods, List.length_map]
  · intro m hm
    rw [hmethods]
    exact ⟨expectedMethod m, List.mem_map_of_mem expectedMethod hm, methodAgrees_expected m⟩

/-- Witness for the amended C1 at a concrete entity with one property and
one one-parameter method. -/
theorem claim_C1_roundtrip_witness :
    (deserialize_datasource_type
      (serialize_datasource_type sampleDsType "http://gims" "2024-06-01T00:00:00")).name =
      "Sensor" ∧
    (deserialize_datasource_type
      (serialize_datasource_type sampleDsType "http://gims" "2024-06-01T00:00:00")).methods.length
      = 1 := by
  have h := claim_C1_roundtrip sampleDsType "http://gims" "2024-06-01T00:00:00"
    (by decide) (by decide)
  exact ⟨h.1, h.2.2.2.2.1⟩

/-- C1 counterexample: the claim quantifies over every entity record, but a
method whose label contains `/` (here `"a/b"`) is lost by the round trip —
`deserialize_datasource_type` parses `methods/a/b/meta.yaml` under the
label `"a"`, finds no `methods/a/meta.yaml`, and recovers no method — so
the deserialized record does not agree with the original on the method
fields. -/
theorem claim_C1_roundtrip_counterexample :
    (deserialize_datasource_type
      (serialize_datasource_type slashLabelType "http://gims" "ts")).methods = [] ∧
    slashLabelType.methods.length = 1 := by
  exact ⟨by decide, rfl⟩


/-- C4 (amended): for every import call whose code bodies pass syntax
validation, when a remote entity with the resolved name already exists and
`update_existing` is false, the call issues no remote mutation and returns
a conflict outcome carrying the existing entity's id and the
rename-or-update suggestion. -/
theorem claim_C4_import_conflict (env : ImportEnv) :
    (∀ (meta_name : Option String) (code : String) (target_name : Option String)
        (target_folder_id : Option Nat) (ex : RemoteItem),
      env.astParse code = none →
      findByName env.scripts (pyOr target_name (meta_name.getD "Unnamed Script")) = some ex →
      import_script env meta_name code target_name target_folder_id false =
        (.conflict (pyOr target_name (meta_name.getD "Unnamed Script")) ex.id
          conflictSuggestion, [])) ∧
    (∀ (files : FileSet) (target_name : Option String) (ex : RemoteItem),
      firstInvalidMethod env.astParse (deserialize_datasource_type files).methods = none →
      findByName env.ds_types (pyOr target_name (deserialize_datasource_type files).name) =
        some ex →
      import_datasource_type env files target_name false =
        (.conflict (pyOr target_name (deserialize_datasource_type files).name) ex.id
          conflictSuggestion, [])) ∧
    (∀ (files : FileSet) (target_name : Option String) (ex : RemoteItem),
      env.astParse (deserialize_activator_type files).code = none →
      findByName env.act_types (pyOr target_name (deserialize_activator_type files).name) =
        some ex →
      import_activator_type env files target_name false =
        (.conflict (pyOr target_name (deserialize_activator_type files).name) ex.id
          conflictSuggestion, [])) := by
  refine ⟨?_, ?_, ?_⟩
  · intro meta_name code target_name target_folder_id ex hvalid hfind
    simp only [import_script, hvalid, hfind]
    rfl
  · intro files target_name ex hvalid hfind
    simp only [import_datasource_type, hvalid, hfind]
    rfl
  · intro files target_name ex hvalid hfind
    simp only [import_activator_type, hvalid, hfind]
    rfl

/-- Witness for the amended C4: with valid code and an existing same-name
entity, each of the three imports returns a conflict carrying the existing
id with no mutation trace. -/
theorem claim_C4_import_conflict_witness :
    import_script importEnvEx (some "X") "pass" none none false =
      (.conflict "X" 7 conflictSuggestion, []) ∧
    import_datasource_type importEnvEx dsFilesEx none false =
      (.conflict "T" 3 conflictSuggestion, []) ∧
    import_activator_type importEnvEx actFilesEx none false =
      (.conflict "A" 5 conflictSuggestion, []) := by
  refine ⟨?_, ?_, ?_⟩
  · exact (claim_C4_import_conflict importEnvEx).1 (some "X") "pass" none none ⟨7, "X"⟩
      (by decide) (by decide)
  · exact (claim_C4_import_conflict importEnvEx).2.1 dsFilesEx none ⟨3, "T"⟩
      (by decide) (by decide)
  · exact (claim_C4_import_conflict importEnvEx).2.2 actFilesEx none ⟨5, "A"⟩
      (by decide) (by decide)

/-- C4 counterexample: the claim as stated quantifies over every import
call with an existing same-name entity and `update_existing=false`, but a
call whose code fails syntax validation returns a syntax error, not a
conflict outcome (no mutation is issued either way): `import_script` with
`brokenCode` and existing script `X`. -/
theorem claim_C4_import_conflict_counterexample :
    (import_script importEnvEx (some "X") brokenCode none none false).1 =
      .syntaxError none (syntaxErrorMessage ⟨1, "invalid syntax"⟩) ∧
    findByName importEnvEx.scripts "X" = some ⟨7, "X"⟩ ∧
    ∀ i s, (import_script importEnvEx (some "X") brokenCode none none false).1 ≠
      ImportOutcome.conflict "X" i s := by
  have h1 : (import_script importEnvEx (some "X") brokenCode none none false).1 =
      .syntaxError none (syntaxErrorMessage ⟨1, "invalid syntax"⟩) := by decide
  refine ⟨h1, by decide, ?_⟩
  intro i s hc
  rw [h1] at hc
  exact ImportOutcome.noConfusion hc

/-- C5: every code body is validated before any remote call; a single
invalid body aborts the whole import with an error naming the offending
method's label (for datasource-type methods) and the syntax problem with
its line number, and the mutation trace is empty; and a method list has an
invalid body exactly when the validation loop finds a first one. -/
theorem claim_C5_syntax_validation (env : ImportEnv) :
    (∀ (meta_name : Option String) (code : String) (target_name : Option String)
        (target_folder_id : Option Nat) (update_existing : Bool) (e : SynErr),
      env.astParse code = some e →
      import_script env meta_name code target_name target_folder_id update_existing =
        (.syntaxError none (syntaxErrorMessage e), [])) ∧
    (∀ (files : FileSet) (target_name : Option String) (update_existing : Bool)
        (m : DeserMethod) (e : SynErr),
      firstInvalidMethod env.astParse (deserialize_datasource_type files).methods =
        some (m, e) →
      import_datasource_type env files target_name update_existing =
        (.syntaxError (some m.label) (syntaxErrorMessage e), [])) ∧
    (∀ (files : FileSet) (target_name : Option String) (update_existing : Bool) (e : SynErr),
      env.astParse (deserialize_activator_type files).code = some e →
      import_activator_type env files target_name update_existing =
        (.syntaxError none (syntaxErrorMessage e), [])) ∧
    (∀ methods : List DeserMethod,
      (firstInvalidMethod env.astParse methods).isSome ↔
        ∃ m ∈ methods, (env.astParse m.code).isSome) := by
  refine ⟨?_, ?_, ?_, ?_⟩
  · intro meta_name code target_name target_folder_id update_existing e hbad
    simp only [import_script, hbad]
  · intro files target_name update_existing m e hbad
    simp only [import_datasource_type, hbad]
  · intro files target_name update_existing e hbad
    simp only [import_activator_type, hbad]
  · intro methods
    induction methods with
    | nil => simp [firstInvalidMethod]
    | cons m rest ih =>
      cases hm : env.astParse m.code with
      | none => simp [firstInvalidMethod, hm, ih]
      | some e => simp [firstInvalidMethod, hm]

/-- Witness for C5: the broken body aborts a script import and a
datasource-type import (naming the method label `m1`) with an empty
mutation trace. -/
theorem claim_C5_syntax_validation_witness :
    import_script importEnvEx (some "X") brokenCode none none true =
      (.syntaxError none (syntaxErrorMessage ⟨1, "invalid syntax"⟩), []) ∧
    import_datasource_type importEnvEx dsBadFilesEx none true =
      (.syntaxError (some "m1") (syntaxErrorMessage ⟨1, "invalid syntax"⟩), []) := by
  constructor
  · exact (claim_C5_syntax_validation importEnvEx).1 (some "X") brokenCode none none true
      ⟨1, "invalid syntax"⟩ (by decide)
  · exact (claim_C5_syntax_validation importEnvEx).2.1 dsBadFilesEx none true
      { name := "M", label := "m1", description := "", code := brokenCode, parameters := [] }
      ⟨1, "invalid syntax"⟩ (by decide)

end Gims
